import Mathlib

/-!
Verification development for the fourteen-kilobytes compiler.

The TypeScript sources under `src/` are shallowly embedded as executable
Lean definitions: strings stay strings, JavaScript numbers become `Nat`
or `Int` (all arithmetic in the embedded code ranges over exact integers,
except the pagination page-count estimate where JavaScript produces
`Infinity`/`NaN`; that value is modelled explicitly by `JsEst`), fallible
code (icon-whitelist lookups that `throw`) returns `Option`, and the one
non-terminating code path is modelled by a dedicated outcome constructor.

Host-environment functions that are not part of the repository
(`Date.getTime`, `Date.toLocaleDateString`, SHA-256 hashing, and the
`sanitizeHtml` helper whose defining file `measure.ts` is not under
`src/`) are abstracted into a `JsEnv` record; theorems quantify over all
such environments.  Exact UTF-8 byte measurement (`TextEncoder`) is
modelled concretely by summing per-character UTF-8 sizes.
-/

/-- Number of bytes of the UTF-8 encoding of one Unicode scalar value,
as produced by `TextEncoder`. -/
def utf8CharBytes (c : Char) : Nat :=
  if c.toNat < 0x80 then 1
  else if c.toNat < 0x800 then 2
  else if c.toNat < 0x10000 then 3
  else 4

/-- `measureBytes` from `measure.browser.ts`: exact UTF-8 byte length of a
string (`encoder.encode(str).length`). -/
def measureBytes (s : String) : Nat :=
  (s.data.map utf8CharBytes).sum

theorem measureBytes_append (a b : String) :
    measureBytes (a ++ b) = measureBytes a + measureBytes b := by
  simp [measureBytes]

theorem utf8CharBytes_pos (c : Char) : 0 < utf8CharBytes c := by
  unfold utf8CharBytes
  split <;> try split <;> try split
  all_goals simp

theorem measureBytes_eq_zero_iff (s : String) :
    measureBytes s = 0 ↔ s = "" := by
  constructor
  · intro h
    cases s with
    | mk data =>
      cases data with
      | nil => rfl
      | cons c cs =>
        exfalso
        have hc := utf8CharBytes_pos c
        simp [measureBytes] at h
        omega
  · intro h; subst h; rfl

/-- `Array.prototype.join(sep)` on a list of strings. -/
def jsJoin (sep : String) : List String → String
  | [] => ""
  | [s] => s
  | s :: rest => s ++ sep ++ jsJoin sep rest

theorem measureBytes_jsJoin_nl (parts : List String) (h : parts ≠ []) :
    measureBytes (jsJoin "\n" parts)
      = (parts.map measureBytes).sum + (parts.length - 1) := by
  induction parts with
  | nil => exact absurd rfl h
  | cons s rest ih =>
    cases rest with
    | nil => simp [jsJoin]
    | cons t ts =>
      have hne : (t :: ts) ≠ ([] : List String) := by simp
      have := ih hne
      simp only [jsJoin, measureBytes_append, this, List.map_cons, List.sum_cons,
        List.length_cons]
      have : measureBytes "\n" = 1 := by decide
      omega

/-- The set of characters JavaScript treats as whitespace for `trim` and
the `\s` regex class (restricted to the scalar values that occur; NBSP and
the rarer Unicode spaces are included for fidelity). -/
def jsIsSpace (c : Char) : Bool :=
  c = ' ' || c = '\t' || c = '\n' || c = '\r' ||
  c.toNat = 0x0b || c.toNat = 0x0c || c.toNat = 0xa0 ||
  c.toNat = 0xfeff || c.toNat = 0x2028 || c.toNat = 0x2029

/-- `String.prototype.trim()`. -/
def jsTrim (s : String) : String :=
  ⟨(s.data.dropWhile jsIsSpace).reverse.dropWhile jsIsSpace |>.reverse⟩

/-- JavaScript string truthiness for an optional string field
(`undefined`, `null` and `""` are falsy). -/
def jsTruthy : Option String → Bool
  | none => false
  | some s => s ≠ ""

/-- Decide whether `pre` is a prefix of `l` (character lists). -/
def listIsPref : List Char → List Char → Bool
  | [], _ => true
  | _ :: _, [] => false
  | p :: ps, c :: cs => p = c && listIsPref ps cs

/-- Decide whether `sub` occurs as a contiguous substring of `s`. -/
def containsSub (s sub : String) : Bool :=
  go s.data sub.data
where
  go : List Char → List Char → Bool
    | [], sub => listIsPref sub []
    | c :: cs, sub => listIsPref sub (c :: cs) || go cs sub

/-- A string is carriage-return free. -/
def crFree (s : String) : Prop := '\r' ∉ s.data

instance (s : String) : Decidable (crFree s) := by
  unfold crFree; infer_instance

/-- `normalizeLineEndings` from `measure.browser.ts`: `\r\n` then any
remaining `\r` become `\n` (the two global replaces amount to this single
left-to-right pass). -/
def normalizeLineEndings (s : String) : String :=
  ⟨go s.data⟩
where
  go : List Char → List Char
    | [] => []
    | '\r' :: '\n' :: rest => '\n' :: go rest
    | '\r' :: rest => '\n' :: go rest
    | c :: rest => c :: go rest

theorem normalizeGo_cons (c : Char) (cs : List Char) (hc : c ≠ '\r') :
    normalizeLineEndings.go (c :: cs) = c :: normalizeLineEndings.go cs := by
  rw [normalizeLineEndings.go.eq_def]
  split
  · simp_all
  · simp_all
  · simp_all
  · simp_all

theorem normalizeGo_id (l : List Char) (h : '\r' ∉ l) :
    normalizeLineEndings.go l = l := by
  induction l with
  | nil => rfl
  | cons c cs ih =>
    have hc : c ≠ '\r' := fun hc => h (hc ▸ List.mem_cons_self c cs)
    rw [normalizeGo_cons c cs hc, ih (fun hm => h (List.mem_cons_of_mem c hm))]

theorem normalizeLineEndings_of_crFree (s : String) (h : crFree s) :
    normalizeLineEndings s = s := by
  cases s with
  | mk data =>
    simp only [normalizeLineEndings]
    rw [normalizeGo_id data h]

/-- Host-environment functions used by the compiler that are not part of
the repository's own sources: `Date` parsing/formatting, SHA-256 hashing
(Web Crypto), the build timestamp, and `sanitizeHtml`, which `flatten.ts`
imports from `measure.ts`, a file that is not under `src/` (only the
browser variant `measure.browser.ts` is, and it lacks `sanitizeHtml`).
Theorems quantify over every such environment. -/
structure JsEnv where
  /-- `new Date(s).getTime()` in milliseconds. -/
  getTime : String → Int
  /-- `new Date(s).toLocaleDateString('de-DE', numeric/long/numeric)`. -/
  formatDate : String → String
  /-- `sanitizeHtml` from `measure.ts` (allow-listed footer sanitizer). -/
  sanitizeHtml : String → String
  /-- `computeHash`: SHA-256 hex digest of a string. -/
  computeHash : String → String
  /-- `new Date().toISOString()` at the start of `compile`. -/
  now : String

/-- A concrete environment instantiation used for closed witness
computations (any environment satisfies the theorems). -/
def defaultEnv : JsEnv :=
  { getTime := fun _ => 0
    formatDate := fun s => s
    sanitizeHtml := fun s => s
    computeHash := fun s => s
    now := "1970-01-01T00:00:00.000Z" }

/-- Raw SVG markup of the fixed icon whitelist (`ICON_SVG` in
`icons.ts`), in the source's insertion order. -/
def ICON_SVG : List (String × String) :=
  [ ("arrow-left",
     "<svg xmlns=\"http://www.w3.org/2000/svg\" viewBox=\"0 0 24 24\" width=\"16\" height=\"16\" fill=\"none\" stroke=\"currentColor\" stroke-width=\"2\"><path d=\"M19 12H5M12 19l-7-7 7-7\"/></svg>"),
    ("arrow-right",
     "<svg xmlns=\"http://www.w3.org/2000/svg\" viewBox=\"0 0 24 24\" width=\"16\" height=\"16\" fill=\"none\" stroke=\"currentColor\" stroke-width=\"2\"><path d=\"M5 12h14M12 5l7 7-7 7\"/></svg>"),
    ("arrow-up",
     "<svg xmlns=\"http://www.w3.org/2000/svg\" viewBox=\"0 0 24 24\" width=\"16\" height=\"16\" fill=\"none\" stroke=\"currentColor\" stroke-width=\"2\"><path d=\"M12 19V5M5 12l7-7 7 7\"/></svg>"),
    ("arrow-down",
     "<svg xmlns=\"http://www.w3.org/2000/svg\" viewBox=\"0 0 24 24\" width=\"16\" height=\"16\" fill=\"none\" stroke=\"currentColor\" stroke-width=\"2\"><path d=\"M12 5v14M5 12l7 7 7-7\"/></svg>"),
    ("external-link",
     "<svg xmlns=\"http://www.w3.org/2000/svg\" viewBox=\"0 0 24 24\" width=\"16\" height=\"16\" fill=\"none\" stroke=\"currentColor\" stroke-width=\"2\"><path d=\"M18 13v6a2 2 0 01-2 2H5a2 2 0 01-2-2V8a2 2 0 012-2h6M15 3h6v6M10 14L21 3\"/></svg>"),
    ("home",
     "<svg xmlns=\"http://www.w3.org/2000/svg\" viewBox=\"0 0 24 24\" width=\"16\" height=\"16\" fill=\"none\" stroke=\"currentColor\" stroke-width=\"2\"><path d=\"M3 9l9-7 9 7v11a2 2 0 01-2 2H5a2 2 0 01-2-2z\"/></svg>"),
    ("menu",
     "<svg xmlns=\"http://www.w3.org/2000/svg\" viewBox=\"0 0 24 24\" width=\"16\" height=\"16\" fill=\"none\" stroke=\"currentColor\" stroke-width=\"2\"><path d=\"M3 12h18M3 6h18M3 18h18\"/></svg>"),
    ("close",
     "<svg xmlns=\"http://www.w3.org/2000/svg\" viewBox=\"0 0 24 24\" width=\"16\" height=\"16\" fill=\"none\" stroke=\"currentColor\" stroke-width=\"2\"><path d=\"M18 6L6 18M6 6l12 12\"/></svg>"),
    ("check",
     "<svg xmlns=\"http://www.w3.org/2000/svg\" viewBox=\"0 0 24 24\" width=\"16\" height=\"16\" fill=\"none\" stroke=\"currentColor\" stroke-width=\"2\"><path d=\"M20 6L9 17l-5-5\"/></svg>"),
    ("info",
     "<svg xmlns=\"http://www.w3.org/2000/svg\" viewBox=\"0 0 24 24\" width=\"16\" height=\"16\" fill=\"none\" stroke=\"currentColor\" stroke-width=\"2\"><circle cx=\"12\" cy=\"12\" r=\"10\"/><path d=\"M12 16v-4M12 8h.01\"/></svg>"),
    ("warning",
     "<svg xmlns=\"http://www.w3.org/2000/svg\" viewBox=\"0 0 24 24\" width=\"16\" height=\"16\" fill=\"none\" stroke=\"currentColor\" stroke-width=\"2\"><path d=\"M12 9v4M12 17h.01\"/><path d=\"M10.29 3.86L1.82 18a2 2 0 001.71 3h16.94a2 2 0 001.71-3L13.71 3.86a2 2 0 00-3.42 0z\"/></svg>"),
    ("error",
     "<svg xmlns=\"http://www.w3.org/2000/svg\" viewBox=\"0 0 24 24\" width=\"16\" height=\"16\" fill=\"none\" stroke=\"currentColor\" stroke-width=\"2\"><circle cx=\"12\" cy=\"12\" r=\"10\"/><path d=\"M15 9l-6 6M9 9l6 6\"/></svg>"),
    ("mail",
     "<svg xmlns=\"http://www.w3.org/2000/svg\" viewBox=\"0 0 24 24\" width=\"16\" height=\"16\" fill=\"none\" stroke=\"currentColor\" stroke-width=\"2\"><rect x=\"2\" y=\"4\" width=\"20\" height=\"16\" rx=\"2\"/><path d=\"M22 6l-10 7L2 6\"/></svg>"),
    ("rss",
     "<svg xmlns=\"http://www.w3.org/2000/svg\" viewBox=\"0 0 24 24\" width=\"16\" height=\"16\" fill=\"none\" stroke=\"currentColor\" stroke-width=\"2\"><path d=\"M4 11a9 9 0 019 9M4 4a16 16 0 0116 16\"/><circle cx=\"5\" cy=\"19\" r=\"1\"/></svg>"),
    ("calendar",
     "<svg xmlns=\"http://www.w3.org/2000/svg\" viewBox=\"0 0 24 24\" width=\"16\" height=\"16\" fill=\"none\" stroke=\"currentColor\" stroke-width=\"2\"><rect x=\"3\" y=\"4\" width=\"18\" height=\"18\" rx=\"2\"/><path d=\"M16 2v4M8 2v4M3 10h18\"/></svg>"),
    ("tag",
     "<svg xmlns=\"http://www.w3.org/2000/svg\" viewBox=\"0 0 24 24\" width=\"16\" height=\"16\" fill=\"none\" stroke=\"currentColor\" stroke-width=\"2\"><path d=\"M20.59 13.41l-7.17 7.17a2 2 0 01-2.83 0L2 12V2h10l8.59 8.59a2 2 0 010 2.82z\"/><circle cx=\"7\" cy=\"7\" r=\"1\"/></svg>") ]

/-- `ICON_WHITELIST` lookup (`Map.get`): the icon's SVG, or `none` for an
id outside the whitelist.  The throwing accessors below build on it. -/
def iconLookup (id : String) : Option String :=
  (ICON_SVG.find? (fun p => p.1 = id)).map (fun p => p.2)

/-- `isValidIconId` from `icons.ts`. -/
def isValidIconId (id : String) : Bool :=
  (iconLookup id).isSome

/-- `getAvailableIconIds` from `icons.ts` (ids, sorted). -/
def getAvailableIconIds : List String :=
  (ICON_SVG.map Prod.fst).mergeSort (fun a b => decide (a ≤ b))

/-- `getIconSvg` from `icons.ts`; the `throw` branch for an id outside
the whitelist is modelled as `none`. -/
def getIconSvg (id : String) : Option String :=
  iconLookup id

/-- `getIconBytes` from `icons.ts`; `none` models the `throw` branch. -/
def getIconBytes (id : String) : Option Nat :=
  (iconLookup id).map measureBytes

/-- `SIZE_LIMIT` from `types.ts`: 14 KB in bytes. -/
def SIZE_LIMIT : Nat := 14336

/-- `MAX_PAGINATION_ITERATIONS` from `types.ts`. -/
def MAX_PAGINATION_ITERATIONS : Nat := 10

/-- `ModuleBreakdown`: named byte counts per module category. -/
structure ModuleBreakdown where
  base : Nat
  title : Nat
  favicon : Nat
  meta : Nat
  css : Nat
  navigation : Nat
  footer : Nat
  pagination : Nat
  icons : Nat
  content : Nat
deriving DecidableEq, Repr

/-- `totalFromBreakdown` from `measure.browser.ts`. -/
def totalFromBreakdown (b : ModuleBreakdown) : Nat :=
  b.base + b.title + b.favicon + b.meta + b.css + b.navigation +
  b.footer + b.pagination + b.icons + b.content

/-- Block-type tag on a flattened block (`blockType` in `flatten.ts`;
absent for ordinary blocks). -/
inductive FlatBlockType where
  | bloglistItem
  | bloglistArchiveLink
deriving DecidableEq, Repr

/-- `FlattenedContentBlock`: an HTML fragment with its exact byte length
and originating source index. -/
structure FlattenedContentBlock where
  html : String
  bytes : Nat
  sourceIndex : Nat
  blockType : Option FlatBlockType := none
deriving DecidableEq, Repr

/-- `FlattenedPage`: the named structural fragments of a page. -/
structure FlattenedPage where
  doctype : String
  htmlOpen : String
  head : String
  bodyOpen : String
  navigation : String
  mainOpen : String
  content : String
  mainClose : String
  footer : String
  bodyClose : String
  htmlClose : String
deriving DecidableEq, Repr

/-- `Post`: feed-post metadata consumed by bloglist expansion.  The
status/pageType unions are kept as strings, as the code compares them
with string literals. -/
structure Post where
  slug : String
  title : String
  publishedAt : String
  status : String
  pageType : String
deriving DecidableEq, Repr

/-- Archive link of a bloglist block. -/
structure ArchiveLink where
  href : String
  text : String
deriving DecidableEq, Repr

/-- The `limit` field of a bloglist block (`limit?: number | null`):
absent, the explicit `null` sentinel ("all"), or an explicit count.
The definition file `types.ts` of the current revision is not under
`src/`; per the spec the explicit form is a non-negative integer. -/
inductive JsLimit where
  | undef
  | nullv
  | num (n : Nat)
deriving DecidableEq, Repr

/-- `BloglistBlock`: post-feed block. -/
structure BloglistBlock where
  limit : JsLimit := .undef
  archiveLink : Option ArchiveLink := none
  selector : Option String := none
deriving DecidableEq, Repr

/-- `InlineNode`: recursive inline-content tree. -/
inductive InlineNode where
  | text (s : String)
  | linebreak
  | bold (children : List InlineNode)
  | italic (children : List InlineNode)
  | underline (children : List InlineNode)
  | strikethrough (children : List InlineNode)
  | code (children : List InlineNode)
  | link (href : String) (children : List InlineNode)

mutual
/-- `ContentBlock`: the closed set of block variants handled by
`flattenContentBlock` in `flatten.ts`.  List items carry just their
inline children (`item.children` is all the code reads). -/
inductive ContentBlock where
  | heading (selector : Option String) (level : Option Nat)
      (children : List InlineNode)
  | paragraph (selector : Option String) (children : List InlineNode)
  | blockquote (selector : Option String) (children : List InlineNode)
  | unorderedList (selector : Option String) (items : List (List InlineNode))
  | orderedList (selector : Option String) (items : List (List InlineNode))
  | codeblock (selector : Option String) (content : String)
  | divider (selector : Option String)
  | spacer (selector : Option String) (height : Option String)
  | layout (selector : Option String) (columns : Nat) (rows : Option Nat)
      (rowGap : Option String) (columnGap : Option String)
      (className : Option String) (cells : List LayoutCell)
  | sectionB (selector : Option String)
      (background color pattern patternColor patternOpacity : Option String)
      (width padding align : Option String)
      (children : List ContentBlock)
  | bloglist (b : BloglistBlock)
/-- A cell of a `layout` block. -/
inductive LayoutCell where
  | mk (textAlign padding margin : Option String)
      (children : List ContentBlock)
end

/-- The `type` discriminator string of a block, as compared by
`validate.ts` and `flatten.ts`. -/
def ContentBlock.tag : ContentBlock → String
  | .heading .. => "heading"
  | .paragraph .. => "paragraph"
  | .blockquote .. => "blockquote"
  | .unorderedList .. => "unordered-list"
  | .orderedList .. => "ordered-list"
  | .codeblock .. => "codeblock"
  | .divider .. => "divider"
  | .spacer .. => "spacer"
  | .layout .. => "layout"
  | .sectionB .. => "section"
  | .bloglist _ => "bloglist"

/-- `IconReference`: placement kept as a string
(`'navigation' | 'content' | 'footer'`). -/
structure IconReference where
  id : String
  placement : String
  index : Nat
deriving DecidableEq, Repr

/-- Navigation item. -/
structure NavigationItem where
  text : String
  href : String
deriving DecidableEq, Repr

/-- Navigation module. -/
structure NavigationModule where
  items : List NavigationItem
deriving DecidableEq, Repr

/-- Footer module (plain text content, sanitized at render time). -/
structure FooterModule where
  content : String
deriving DecidableEq, Repr

/-- CSS module. -/
structure CssModule where
  rules : String
deriving DecidableEq, Repr

/-- Meta module: optional description and author. -/
structure MetaModule where
  description : Option String := none
  author : Option String := none
deriving DecidableEq, Repr

/-- `CompilerInput`: the validated-input shape consumed by `compile`.
Optional string fields model `undefined` as `none`. -/
structure CompilerInput where
  slug : String
  title : String
  titleOverride : Option String := none
  siteTitle : Option String := none
  favicon : Option String := none
  content : List ContentBlock
  navigation : Option NavigationModule := none
  footer : Option FooterModule := none
  css : Option CssModule := none
  meta : Option MetaModule := none
  icons : List IconReference := []
  posts : Option (List Post) := none
  classMangling : Option Bool := none
  allowPagination : Bool
  buildId : String

/-- `SimpleMeasurements` from `types.ts`. -/
structure SimpleMeasurements where
  total : Nat
  overhead : Nat
  content : Nat
deriving DecidableEq, Repr

/-- `PageMeasurement` from `types.ts`.  The diagnostic floating-point
`utilizationRatio` field (`total / 14336`) is not modelled; `remaining`
is `limit - total`, an integer that may be negative. -/
structure PageMeasurement where
  slug : String
  breakdown : ModuleBreakdown
  measurements : SimpleMeasurements
  total : Nat
  remaining : Int
deriving DecidableEq, Repr

/-- `createPageMeasurement` from `measure.browser.ts`. -/
def createPageMeasurement (slug : String) (breakdown : ModuleBreakdown) :
    PageMeasurement :=
  let overhead := breakdown.base + breakdown.title + breakdown.favicon +
    breakdown.meta + breakdown.css + breakdown.navigation +
    breakdown.footer + breakdown.pagination + breakdown.icons
  let content := breakdown.content
  let total := overhead + content
  { slug := slug
    breakdown := breakdown
    measurements := { total := total, overhead := overhead, content := content }
    total := total
    remaining := (SIZE_LIMIT : Int) - (total : Int) }

/-- `CompiledPage` from `types.ts`. -/
structure CompiledPage where
  slug : String
  pageNumber : Nat
  totalPages : Nat
  html : String
  bytes : Nat
  hash : String
deriving DecidableEq, Repr

/-- Pointer to the first content block whose size alone exceeds the
available budget (part of `SIZE_LIMIT_EXCEEDED`). -/
structure OversizedBlock where
  index : Nat
  size : Nat
  availableBudget : Int
deriving DecidableEq, Repr

/-- `CompilerError` from `types.ts` (the manifest-category errors are not
reachable from `compile` and are omitted). -/
inductive CompilerError where
  | INVALID_SLUG (slug : String) (pattern : String)
  | INVALID_HREF (href : String) (reason : String) (path : Option String)
  | ICON_NOT_IN_WHITELIST (iconId : String) (available : List String)
      (path : Option String)
  | CSS_PARSE_ERROR (offset : Nat) (message : String)
  | CONTENT_INVALID_ELEMENT (element : String) (allowed : List String)
      (path : Option String)
  | CONTENT_EMPTY (message : String)
  | EMPTY_TITLE (message : String)
  | TITLE_TOO_LONG (length : Nat) (maxLength : Nat)
  | SIZE_LIMIT_EXCEEDED (measured : Nat) (limit : Nat)
      (breakdown : ModuleBreakdown) (oversizedBlock : Option OversizedBlock)
  | PAGINATION_DISABLED (measured : Nat) (limit : Nat)
  | PAGINATION_BLOCK_TOO_LARGE (blockIndex : Nat) (blockSize : Nat)
      (availableBudget : Int)
  | PAGINATION_NO_CONVERGENCE (iterations : Nat)
deriving DecidableEq, Repr

/-- Aggregate totals of a successful compilation.  JavaScript's
`Math.max()`/`Math.min()` of an empty list are `±Infinity`; that edge is
modelled with `none`. -/
structure CompileTotals where
  pageCount : Nat
  totalBytes : Nat
  largestPage : Option Nat
  smallestPage : Option Nat
deriving DecidableEq, Repr

/-- `CompilerResult`: the success/failure union. -/
inductive CompilerResult where
  | success (buildId : String) (timestamp : String)
      (pages : List CompiledPage) (measurements : List PageMeasurement)
      (totals : CompileTotals)
  | failure (buildId : String) (timestamp : String) (error : CompilerError)
      (partialMeasurements : Option PageMeasurement)
deriving DecidableEq, Repr

/-- `ValidationResult` from `validate.ts`. -/
inductive ValidationResult where
  | valid
  | invalid (error : CompilerError)
deriving DecidableEq, Repr

/-- JavaScript `String.prototype.length`: UTF-16 code units. -/
def jsLength (s : String) : Nat :=
  (s.data.map (fun c => if c.toNat ≥ 0x10000 then 2 else 1)).sum

/-- ASCII case folding as applied by a regex `i` flag. -/
def asciiFold (c : Char) : Char :=
  if 'A' ≤ c ∧ c ≤ 'Z' then Char.ofNat (c.toNat + 32) else c

/-- Character class `[a-z0-9-]`. -/
def slugChar (c : Char) : Bool :=
  ('a' ≤ c && c ≤ 'z') || ('0' ≤ c && c ≤ '9') || c = '-'

/-- Character class of href path bodies: slug chars plus dot, underscore and slash. -/
def pathChar (c : Char) : Bool :=
  slugChar c || c = '.' || c = '_' || c = '/'

/-- `SLUG_PATTERN` (`/^[a-z0-9-]+$/`) match. -/
def slugMatches (s : String) : Bool :=
  s.data ≠ [] && s.data.all slugChar

/-- `HREF_PATTERN` match: an absolute path of path characters, a
fragment of slug characters, or `stem.html` with a non-empty slug-char
stem; the regex `i` flag is modelled by ASCII-folding the subject. -/
def hrefMatches (s : String) : Bool :=
  let l := s.data.map asciiFold
  match l with
  | '/' :: rest => rest.all pathChar
  | '#' :: rest => rest.all slugChar
  | l =>
      let stem := l.takeWhile slugChar
      stem ≠ [] && l.drop stem.length = ".html".data

/-- The tag string of an inline node. -/
def InlineNode.tag : InlineNode → String
  | .text _ => "text"
  | .linebreak => "linebreak"
  | .bold _ => "bold"
  | .italic _ => "italic"
  | .underline _ => "underline"
  | .strikethrough _ => "strikethrough"
  | .code _ => "code"
  | .link _ _ => "link"

/-- `validateSlug` from `validate.ts`. -/
def validateSlug (slug : String) : ValidationResult :=
  if slugMatches slug then .valid
  else .invalid (.INVALID_SLUG slug "^[a-z0-9-]+$")

/-- `validateTitle` from `validate.ts`. -/
def validateTitle (title : String) : ValidationResult :=
  if title = "" ∨ jsLength (jsTrim title) = 0 then
    .invalid (.EMPTY_TITLE "Title cannot be empty")
  else if jsLength title > 200 then
    .invalid (.TITLE_TOO_LONG (jsLength title) 200)
  else .valid

/-- `validateHref` from `validate.ts`. -/
def validateHref (href : String) (path : Option String) : ValidationResult :=
  if hrefMatches href then .valid
  else .invalid (.INVALID_HREF href
    "Must be relative path, fragment, or .html file" path)

mutual
/-- `validateInlineNode` from `validate.ts`. -/
def validateInlineNode (node : InlineNode) (path : String) :
    ValidationResult :=
  let allowed := ["text", "linebreak", "bold", "italic", "link"]
  if node.tag ∉ allowed then
    .invalid (.CONTENT_INVALID_ELEMENT node.tag allowed (some path))
  else
    match node with
    | .text _ => .valid
    | .linebreak => .valid
    | .link href children =>
        match validateHref href (some path) with
        | .invalid e => .invalid e
        | .valid => validateInlineNodes children path 0
    | .bold children => validateInlineNodes children path 0
    | .italic children => validateInlineNodes children path 0
    | .underline children => validateInlineNodes children path 0
    | .strikethrough children => validateInlineNodes children path 0
    | .code children => validateInlineNodes children path 0
/-- Child-list traversal of `validateInlineNode` (the `for` loop). -/
def validateInlineNodes (nodes : List InlineNode) (path : String)
    (i : Nat) : ValidationResult :=
  match nodes with
  | [] => .valid
  | n :: rest =>
      match validateInlineNode n (path ++ ".children[" ++ toString i ++ "]") with
      | .invalid e => .invalid e
      | .valid => validateInlineNodes rest path (i + 1)
end

/-- Rendering of `block.level` inside a template literal
(`undefined` for a missing field). -/
def jsShowOptNat : Option Nat → String
  | none => "undefined"
  | some n => toString n

/-- `validateContentBlock` from `validate.ts`: only `heading`,
`paragraph` and `bloglist` block types are accepted. -/
def validateContentBlock (block : ContentBlock) (path : String) :
    ValidationResult :=
  if block.tag ≠ "heading" ∧ block.tag ≠ "paragraph" ∧
      block.tag ≠ "bloglist" then
    .invalid (.CONTENT_INVALID_ELEMENT block.tag
      ["heading", "paragraph", "bloglist"] (some path))
  else
    match block with
    | .heading _ level children =>
        if level = none ∨ (level.getD 0) < 1 ∨ (level.getD 0) > 6 then
          .invalid (.CONTENT_INVALID_ELEMENT
            ("heading with level " ++ jsShowOptNat level)
            ["heading with level 1-6"] (some path))
        else validateInlineNodes children path 0
    | .paragraph _ children => validateInlineNodes children path 0
    | .bloglist _ => .valid
    | _ => .valid

/-- Traversal of `validateContent`'s block loop. -/
def validateContentBlocks (blocks : List ContentBlock) (i : Nat) :
    ValidationResult :=
  match blocks with
  | [] => .valid
  | b :: rest =>
      match validateContentBlock b ("content[" ++ toString i ++ "]") with
      | .invalid e => .invalid e
      | .valid => validateContentBlocks rest (i + 1)

/-- `validateContent` from `validate.ts`. -/
def validateContent (blocks : List ContentBlock) : ValidationResult :=
  match blocks with
  | [] => .invalid (.CONTENT_EMPTY "At least one content block is required")
  | _ => validateContentBlocks blocks 0

/-- Traversal of `validateNavigation`'s item loop. -/
def validateNavigationItems (items : List NavigationItem) (i : Nat) :
    ValidationResult :=
  match items with
  | [] => .valid
  | item :: rest =>
      let path := "navigation.items[" ++ toString i ++ "]"
      if item.text = "" ∨ jsLength (jsTrim item.text) = 0 then
        .invalid (.CONTENT_INVALID_ELEMENT
          "navigation item with empty text"
          ["navigation item with non-empty text"] (some path))
      else
        match validateHref item.href (some path) with
        | .invalid e => .invalid e
        | .valid => validateNavigationItems rest (i + 1)

/-- `validateNavigation` from `validate.ts`. -/
def validateNavigation (nav : NavigationModule) : ValidationResult :=
  validateNavigationItems nav.items 0

/-- `validateFooter` from `validate.ts`: the `typeof`-string check always
passes in the typed model. -/
def validateFooter (_footer : FooterModule) : ValidationResult := .valid

/-- Brace-balance scan of `validateCss` (index in UTF-16 units; braces
are BMP so positions coincide with loop indices). -/
def cssScan (chars : List Char) (i : Nat) (count : Int) :
    Option (Nat × String) :=
  match chars with
  | [] => if count ≠ 0 then some (i, "Unbalanced braces") else none
  | c :: rest =>
      let count := if c = Char.ofNat 0x7b then count + 1
        else if c = Char.ofNat 0x7d then count - 1 else count
      if count < 0 then some (i, "Unexpected closing brace")
      else cssScan rest (i + (if c.toNat ≥ 0x10000 then 2 else 1)) count

/-- `validateCss` from `validate.ts`. -/
def validateCss (css : CssModule) : ValidationResult :=
  match cssScan css.rules.data 0 0 with
  | some (offset, msg) => .invalid (.CSS_PARSE_ERROR offset msg)
  | none => .valid

/-- Author branch of `validateMeta`. -/
def validateMetaAuthor (meta : MetaModule) : ValidationResult :=
  match meta.author with
  | some a =>
      if jsLength a > 100 then
        .invalid (.CONTENT_INVALID_ELEMENT
          ("meta author with " ++ toString (jsLength a) ++ " characters")
          ["meta author with max 100 characters"] none)
      else .valid
  | none => .valid

/-- `validateMeta` from `validate.ts` (`typeof` checks always pass in the
typed model; only the length checks remain). -/
def validateMeta (meta : MetaModule) : ValidationResult :=
  match meta.description with
  | some d =>
      if jsLength d > 160 then
        .invalid (.CONTENT_INVALID_ELEMENT
          ("meta description with " ++ toString (jsLength d) ++ " characters")
          ["meta description with max 160 characters"] none)
      else validateMetaAuthor meta
  | none => validateMetaAuthor meta

/-- Traversal of `validateIcons`' loop. -/
def validateIconsList (icons : List IconReference) (i : Nat) :
    ValidationResult :=
  match icons with
  | [] => .valid
  | icon :: rest =>
      if ¬ isValidIconId icon.id then
        .invalid (.ICON_NOT_IN_WHITELIST icon.id getAvailableIconIds
          (some ("icons[" ++ toString i ++ "]")))
      else validateIconsList rest (i + 1)

/-- `validateIcons` from `validate.ts`. -/
def validateIcons (icons : List IconReference) : ValidationResult :=
  validateIconsList icons 0

/-- `validateInput` from `validate.ts`: the full validation pipeline. -/
def validateInput (input : CompilerInput) : ValidationResult :=
  match validateSlug input.slug with
  | .invalid e => .invalid e
  | .valid =>
  match validateTitle input.title with
  | .invalid e => .invalid e
  | .valid =>
  match validateContent input.content with
  | .invalid e => .invalid e
  | .valid =>
  match (match input.navigation with
         | some nav => validateNavigation nav
         | none => .valid) with
  | .invalid e => .invalid e
  | .valid =>
  match (match input.footer with
         | some f => validateFooter f
         | none => .valid) with
  | .invalid e => .invalid e
  | .valid =>
  match (match input.css with
         | some css => validateCss css
         | none => .valid) with
  | .invalid e => .invalid e
  | .valid =>
  match (match input.meta with
         | some m => validateMeta m
         | none => .valid) with
  | .invalid e => .invalid e
  | .valid => validateIcons input.icons

/-- Concatenation of a list of strings (`join('')`). -/
def concatStrings : List String → String
  | [] => ""
  | s :: rest => s ++ concatStrings rest

/-- Per-character replacement of `escapeHtml`'s regex
(`HTML_ESCAPE` in `flatten.ts`). -/
def escChar (c : Char) : String :=
  if c = '&' then "&amp;"
  else if c = '<' then "&lt;"
  else if c = '>' then "&gt;"
  else if c = '"' then "&quot;"
  else if c = Char.ofNat 39 then "&#39;"
  else String.singleton c

/-- `escapeHtml` from `flatten.ts`: escape `&`, `<`, `>`, double and
single quotes. -/
def escapeHtml (s : String) : String :=
  concatStrings (s.data.map escChar)

/-- `GENERATED_CLASS_MAP` from `flatten.ts`. -/
def GENERATED_CLASS_MAP : List (String × String) :=
  [ ("layout", "l"), ("cell", "c"), ("bg-pattern-dots", "pd"),
    ("bg-pattern-grid", "pg"), ("bg-pattern-stripes", "ps"),
    ("bg-pattern-cross", "pc"), ("bg-pattern-hexagons", "ph") ]

/-- `mangleGeneratedClass` from `flatten.ts`. -/
def mangleGeneratedClass (className : String) (enabled : Bool) : String :=
  if !enabled then className
  else ((GENERATED_CLASS_MAP.find? (fun p => p.1 = className)).map
    (fun p => p.2)).getD className

/-- Identifier-continuation character class `[a-zA-Z0-9_-]` used by the
class-selector rewriting regex and by `safeToken`. -/
def identChar (c : Char) : Bool :=
  ('a' ≤ c && c ≤ 'z') || ('A' ≤ c && c ≤ 'Z') ||
  ('0' ≤ c && c ≤ '9') || c = '_' || c = '-'

/-- One global regex replacement pass of `mangleCssClassSelectors`:
rewrite each occurrence of `.fromC` not followed by an identifier
character into `.toC`, scanning left to right. -/
def replaceClassSel (fromC toC : List Char) : List Char → List Char
  | [] => []
  | '.' :: rest =>
      if listIsPref fromC rest &&
          (match rest.drop fromC.length with
           | [] => true
           | c :: _ => !identChar c) then
        '.' :: (toC ++ replaceClassSel fromC toC (rest.drop fromC.length))
      else '.' :: replaceClassSel fromC toC rest
  | c :: rest => c :: replaceClassSel fromC toC rest
termination_by l => l.length
decreasing_by
  all_goals simp_all [List.length_drop]
  all_goals omega

/-- `mangleCssClassSelectors` from `flatten.ts`. -/
def mangleCssClassSelectors (css : String) (enabled : Bool) : String :=
  if !enabled || css = "" then css
  else GENERATED_CLASS_MAP.foldl
    (fun acc p =>
      if p.1 = p.2 then acc
      else ⟨replaceClassSel p.1.data p.2.data acc.data⟩)
    css

/-- `safeToken` inside `parseSelector`: trim, then strip every character
outside `[a-zA-Z0-9_-]`. -/
def safeToken (t : String) : String :=
  ⟨(jsTrim t).data.filter identChar⟩

/-- Split a character list at every element satisfying `p` (single-element
separators; empty fields are preserved, matching `String.prototype.split`
with a single-character pattern — the run-collapsing of the `[.\s]+`
regex differs only by extra empty fields, which the caller filters). -/
def splitOnPred (p : Char → Bool) : List Char → List (List Char)
  | [] => [[]]
  | c :: rest =>
      let r := splitOnPred p rest
      if p c then [] :: r
      else
        match r with
        | [] => [[c]]
        | f :: fs => (c :: f) :: fs

/-- `parseSelector` from `flatten.ts`: an optional selector string parsed
into an element id and a class list. -/
def parseSelector (selector : Option String) : String × List String :=
  if ¬ jsTruthy selector then ("", [])
  else
    let normalized := jsTrim (selector.getD "")
    if normalized = "" then ("", [])
    else if listIsPref ['#'] normalized.data then
      match (normalized.drop 1).data.splitOn '.' with
      | [] => ("", [])
      | idToken :: classTokens =>
          (safeToken ⟨idToken⟩,
           (classTokens.map (fun t => safeToken ⟨t⟩)).filter (· ≠ ""))
    else
      let source :=
        if listIsPref ['.'] normalized.data then normalized.drop 1
        else normalized
      let classes :=
        ((splitOnPred (fun c => c = '.' || jsIsSpace c) source.data).map
          (fun t => safeToken ⟨t⟩)).filter (· ≠ "")
      ("", classes)

/-- `selectorAttrs` from `flatten.ts`. -/
def selectorAttrs (selector : Option String)
    (baseClasses : List String) : String :=
  let parsed := parseSelector selector
  let classes := (baseClasses ++ parsed.2).filter (· ≠ "")
  let idAttr :=
    if parsed.1 ≠ "" then " id=\"" ++ escapeHtml parsed.1 ++ "\"" else ""
  let classAttr :=
    if classes ≠ [] then
      " class=\"" ++ escapeHtml (jsJoin " " classes) ++ "\"" else ""
  idAttr ++ classAttr

/-- The published, feed-eligible filter of bloglist expansion. -/
def publishedPosts (posts : List Post) : List Post :=
  posts.filter (fun p => p.status = "published" && p.pageType = "post")

/-- `Array.prototype.sort` with comparator
`(a, b) => time(b) - time(a)`: a stable sort descending by publish
timestamp. -/
def sortPostsDesc (env : JsEnv) (posts : List Post) : List Post :=
  posts.mergeSort
    (fun a b => env.getTime b.publishedAt ≤ env.getTime a.publishedAt)

/-- Resolved bloglist limit: `null` means all, absent means the default
of 20 (`DEFAULT_BLOGLIST_LIMIT`). -/
def bloglistLimit (b : BloglistBlock) (publishedLen : Nat) : Nat :=
  match b.limit with
  | .nullv => publishedLen
  | .num n => n
  | .undef => 20

/-- Empty-state fragment of a bloglist with no published posts. -/
def emptyStateHtml : String := "<p class=\"empty\">Noch keine Posts.</p>"

/-- One feed item of a bloglist. -/
def bloglistItemHtml (env : JsEnv) (post : Post) : String :=
  "<li class=\"post\"><a href=\"/" ++ escapeHtml post.slug ++ "\">" ++
  escapeHtml post.title ++ "</a> - <time datetime=\"" ++
  escapeHtml post.publishedAt ++ "\">" ++ env.formatDate post.publishedAt ++
  "</time></li>"

/-- Archive-link fragment of a bloglist. -/
def archiveLinkHtml (al : ArchiveLink) : String :=
  "<p class=\"archive-link\"><a href=\"" ++ escapeHtml al.href ++ "\">" ++
  escapeHtml al.text ++ "</a></p>"

/-- End-of-list marker fragment. -/
def endOfListHtml : String := "<p class=\"end-of-list\">— Ende der Liste —</p>"

/-- `flattenBloglistToItems` from `flatten.ts`: expand a bloglist block
into per-post flattened blocks plus an optional trailer. -/
def flattenBloglistToItems (env : JsEnv) (posts : List Post)
    (block : BloglistBlock) (sourceIndex : Nat) :
    List FlattenedContentBlock :=
  let published := publishedPosts posts
  match published with
  | [] =>
      [{ html := emptyStateHtml, bytes := measureBytes emptyStateHtml,
         sourceIndex := sourceIndex }]
  | _ =>
      let sorted := sortPostsDesc env published
      let limited := sorted.take (bloglistLimit block sorted.length)
      let blocks := limited.map (fun post =>
        { html := bloglistItemHtml env post
          bytes := measureBytes (bloglistItemHtml env post)
          sourceIndex := sourceIndex
          blockType := some .bloglistItem : FlattenedContentBlock })
      match block.archiveLink with
      | some al =>
          blocks ++ [{ html := archiveLinkHtml al
                       bytes := measureBytes (archiveLinkHtml al)
                       sourceIndex := sourceIndex
                       blockType := some .bloglistArchiveLink }]
      | none =>
          if block.limit = .nullv then
            blocks ++ [{ html := endOfListHtml
                         bytes := measureBytes endOfListHtml
                         sourceIndex := sourceIndex
                         blockType := some .bloglistArchiveLink }]
          else blocks

/-- `renderBloglist` from `flatten.ts` (the non-expanded rendering used
for bloglists nested inside layout or section blocks). -/
def renderBloglist (env : JsEnv) (posts : List Post)
    (block : BloglistBlock) : String :=
  let published := publishedPosts posts
  match published with
  | [] => emptyStateHtml
  | _ =>
      let sorted := sortPostsDesc env published
      let limited := sorted.take (bloglistLimit block sorted.length)
      let items := jsJoin "\n" (limited.map (bloglistItemHtml env))
      let html := "<ul class=\"posts\">\n" ++ items ++ "\n</ul>"
      match block.archiveLink with
      | some al => html ++ "\n" ++ archiveLinkHtml al
      | none => html

/-- JavaScript `parseInt(s, 16)`: optional whitespace, sign, `0x` prefix,
then greedy hex digits; no digits yields `NaN`, modelled as `none`. -/
def jsParseIntHex (s : String) : Option Int :=
  let l := s.data.dropWhile jsIsSpace
  let (sign, l) :=
    match l with
    | '-' :: rest => ((-1 : Int), rest)
    | '+' :: rest => ((1 : Int), rest)
    | l => ((1 : Int), l)
  let l :=
    match l with
    | '0' :: 'x' :: rest => rest
    | '0' :: 'X' :: rest => rest
    | l => l
  let digits := l.takeWhile (fun c =>
    ('0' ≤ c && c ≤ '9') || ('a' ≤ c && c ≤ 'f') || ('A' ≤ c && c ≤ 'F'))
  let hexVal : Char → Nat := fun c =>
    if c ≤ '9' then c.toNat - '0'.toNat
    else if c ≤ 'F' then c.toNat - 'A'.toNat + 10
    else c.toNat - 'a'.toNat + 10
  match digits with
  | [] => none
  | _ => some (sign * (digits.foldl
      (fun (acc : Int) (c : Char) => acc * 16 + (hexVal c : Int)) 0))

/-- Template-literal rendering of a `parseInt` result (`NaN` prints as
`"NaN"`). -/
def jsShowParsed : Option Int → String
  | none => "NaN"
  | some n => toString n

/-- JavaScript truthiness of an optional number (`undefined` and `0` are
falsy). -/
def jsTruthyNat : Option Nat → Bool
  | none => false
  | some n => n ≠ 0

/-- `substring(a, b)` on UTF-16 indices (the hex-color fields are ASCII,
where code units and scalar values coincide). -/
def jsSubstring (s : String) (a b : Nat) : String :=
  ⟨(s.data.drop a).take (b - a)⟩

mutual
/-- `flattenInlineNode` from `flatten.ts`: one inline node at position
`index` of its sibling list; `none` models the icon-lookup `throw`. -/
def flattenInlineNode (icons : List IconReference) (placement : String)
    (node : InlineNode) (index : Nat) : Option String :=
  match node with
  | .text s => some (escapeHtml s)
  | .linebreak => some "<br>"
  | .bold children =>
      (flattenInlineNodesFrom icons placement 0 children).map
        (fun h => "<b>" ++ h ++ "</b>")
  | .italic children =>
      (flattenInlineNodesFrom icons placement 0 children).map
        (fun h => "<i>" ++ h ++ "</i>")
  | .underline children =>
      (flattenInlineNodesFrom icons placement 0 children).map
        (fun h => "<u>" ++ h ++ "</u>")
  | .strikethrough children =>
      (flattenInlineNodesFrom icons placement 0 children).map
        (fun h => "<s>" ++ h ++ "</s>")
  | .code children =>
      (flattenInlineNodesFrom icons placement 0 children).map
        (fun h => "<code>" ++ h ++ "</code>")
  | .link href children => do
      let childHtml ← flattenInlineNodesFrom icons placement 0 children
      let iconHtml ←
        match icons.find? (fun i =>
            i.placement = placement && i.index = index) with
        | some icon => getIconSvg icon.id
        | none => some ""
      pure ("<a href=\"" ++ escapeHtml href ++ "\">" ++ childHtml ++
        iconHtml ++ "</a>")
  termination_by structural node
/-- Indexed traversal of `flattenInlineNodes` (`map` with index,
`join('')`). -/
def flattenInlineNodesFrom (icons : List IconReference)
    (placement : String) (index : Nat) (nodes : List InlineNode) :
    Option String :=
  match nodes with
  | [] => some ""
  | n :: rest => do
      let h ← flattenInlineNode icons placement n index
      let t ← flattenInlineNodesFrom icons placement (index + 1) rest
      pure (h ++ t)
  termination_by structural nodes
end

/-- `flattenInlineNodes` from `flatten.ts`. -/
def flattenInlineNodes (icons : List IconReference) (placement : String)
    (nodes : List InlineNode) : Option String :=
  flattenInlineNodesFrom icons placement 0 nodes

/-- List-item traversal of the `unordered-list`/`ordered-list` branch:
each item's inline children become `<li>…</li>`. -/
def flattenListItems (icons : List IconReference)
    (items : List (List InlineNode)) : Option (List String) :=
  match items with
  | [] => some []
  | item :: rest => do
      let h ← flattenInlineNodes icons "content" item
      let t ← flattenListItems icons rest
      pure (("<li>" ++ h ++ "</li>") :: t)

mutual
/-- `flattenContentBlock` from `flatten.ts`: render one content block to
HTML.  `none` models the icon-lookup `throw`. -/
def flattenContentBlock (env : JsEnv) (icons : List IconReference)
    (posts : Option (List Post)) (mangle : Bool) (block : ContentBlock) :
    Option String :=
  match block with
  | .bloglist b =>
      let h := renderBloglist env (posts.getD []) b
      if ¬ jsTruthy b.selector then some h
      else some ("<div" ++ selectorAttrs b.selector [] ++ ">" ++ h ++ "</div>")
  | .divider sel => some ("<hr" ++ selectorAttrs sel [] ++ ">")
  | .spacer sel height =>
      let h := match height with
        | some s => if jsTrim s ≠ "" then jsTrim s else "1rem"
        | none => "1rem"
      some ("<div" ++ selectorAttrs sel [] ++ " style=\"height:" ++ h ++
        "\"></div>")
  | .codeblock sel content =>
      some ("<pre" ++ selectorAttrs sel [] ++ "><code>" ++
        escapeHtml content ++ "</code></pre>")
  | .unorderedList sel items => do
      let itemsHtml ← flattenListItems icons items
      pure ("<ul" ++ selectorAttrs sel [] ++ ">\n" ++
        jsJoin "\n" itemsHtml ++ "\n</ul>")
  | .orderedList sel items => do
      let itemsHtml ← flattenListItems icons items
      pure ("<ol" ++ selectorAttrs sel [] ++ ">\n" ++
        jsJoin "\n" itemsHtml ++ "\n</ol>")
  | .layout sel columns rows rowGap columnGap className cells => do
      let cellsHtml ← flattenCells env icons posts mangle cells
      let styles :=
        ["display:inline-grid", "width:fit-content", "max-width:100%"] ++
        (if columns ≠ 1 then
          ["grid-template-columns:repeat(" ++ toString columns ++ ",1fr)"]
         else []) ++
        (if jsTruthyNat rows then
          ["grid-template-rows:repeat(" ++ toString (rows.getD 0) ++ ",auto)"]
         else [])
      let rowGapV := if jsTruthy rowGap then rowGap.getD "" else "0"
      let colGapV := if jsTruthy columnGap then columnGap.getD "" else "0"
      let styles := styles ++
        (if rowGapV = "0" ∧ colGapV = "0" then []
         else if rowGapV = colGapV then ["gap:" ++ rowGapV]
         else ["gap:" ++ rowGapV ++ " " ++ colGapV])
      let styleAttr := " style=\"" ++ jsJoin ";" styles ++ "\""
      let classes := [mangleGeneratedClass "layout" mangle] ++
        (if jsTruthy className then [className.getD ""] else [])
      pure ("<div" ++ selectorAttrs sel classes ++ styleAttr ++ ">" ++
        jsJoin "\n" cellsHtml ++ "</div>")
  | .sectionB sel background color pattern patternColor patternOpacity
      width padding align children => do
      let childrenHtml ← flattenBlockList env icons posts mangle children
      let styles :=
        (if jsTruthy background ∧ background ≠ some "transparent" then
          ["--sb:" ++ background.getD ""] else []) ++
        (if jsTruthy color ∧ color ≠ some "inherit" then
          ["--sc:" ++ color.getD ""] else []) ++
        (if jsTruthy pattern ∧ jsTruthy patternColor ∧
            jsTruthy patternOpacity ∧ patternOpacity ≠ some "0" then
          let hex := patternColor.getD ""
          let r := jsParseIntHex (jsSubstring hex 1 3)
          let g := jsParseIntHex (jsSubstring hex 3 5)
          let b := jsParseIntHex (jsSubstring hex 5 7)
          ["--pc:rgba(" ++ jsShowParsed r ++ "," ++ jsShowParsed g ++ "," ++
            jsShowParsed b ++ "," ++ patternOpacity.getD "" ++ ")"]
         else []) ++
        (if jsTruthy width ∧ width ≠ some "100%" then
          ["--sw:" ++ width.getD ""] else []) ++
        (if jsTruthy padding ∧ padding ≠ some "3rem" then
          ["--sp:" ++ padding.getD ""] else []) ++
        (if jsTruthy align ∧ align ≠ some "left" then
          ["--sa:" ++ align.getD ""] else [])
      let styleAttr :=
        if styles ≠ [] then " style=\"" ++ jsJoin ";" styles ++ "\"" else ""
      let classes :=
        if jsTruthy pattern then
          (if pattern = some "dots" then
            [mangleGeneratedClass "bg-pattern-dots" mangle] else []) ++
          (if pattern = some "grid" then
            [mangleGeneratedClass "bg-pattern-grid" mangle] else []) ++
          (if pattern = some "stripes" then
            [mangleGeneratedClass "bg-pattern-stripes" mangle] else []) ++
          (if pattern = some "cross" then
            [mangleGeneratedClass "bg-pattern-cross" mangle] else []) ++
          (if pattern = some "hexagons" then
            [mangleGeneratedClass "bg-pattern-hexagons" mangle] else [])
        else []
      pure ("<section" ++ selectorAttrs sel classes ++ styleAttr ++ ">" ++
        childrenHtml ++ "</section>")
  | .heading sel level children => do
      let inlineHtml ← flattenInlineNodes icons "content" children
      let lvl := level.getD 1
      pure ("<h" ++ toString lvl ++ selectorAttrs sel [] ++ ">" ++
        inlineHtml ++ "</h" ++ toString lvl ++ ">")
  | .blockquote sel children => do
      let inlineHtml ← flattenInlineNodes icons "content" children
      pure ("<blockquote" ++ selectorAttrs sel [] ++ ">" ++ inlineHtml ++
        "</blockquote>")
  | .paragraph sel children => do
      let inlineHtml ← flattenInlineNodes icons "content" children
      pure ("<p" ++ selectorAttrs sel [] ++ ">" ++ inlineHtml ++ "</p>")
  termination_by structural block
/-- Child traversal of nested blocks, `join('\n')`. -/
def flattenBlockList (env : JsEnv) (icons : List IconReference)
    (posts : Option (List Post)) (mangle : Bool)
    (blocks : List ContentBlock) : Option String :=
  match blocks with
  | [] => some (jsJoin "\n" [])
  | b :: rest => do
      let h ← flattenContentBlock env icons posts mangle b
      let t ← flattenBlockListRest env icons posts mangle rest
      pure (jsJoin "\n" (h :: t))
  termination_by structural blocks
/-- Collect the rendered children of the remaining blocks. -/
def flattenBlockListRest (env : JsEnv) (icons : List IconReference)
    (posts : Option (List Post)) (mangle : Bool)
    (blocks : List ContentBlock) : Option (List String) :=
  match blocks with
  | [] => some []
  | b :: rest => do
      let h ← flattenContentBlock env icons posts mangle b
      let t ← flattenBlockListRest env icons posts mangle rest
      pure (h :: t)
  termination_by structural blocks
/-- Cell traversal of the `layout` branch. -/
def flattenCells (env : JsEnv) (icons : List IconReference)
    (posts : Option (List Post)) (mangle : Bool)
    (cells : List LayoutCell) : Option (List String) :=
  match cells with
  | [] => some []
  | .mk textAlign padding margin children :: rest => do
      let cellContent ← flattenBlockList env icons posts mangle children
      let cellStyles :=
        (if jsTruthy textAlign ∧ textAlign ≠ some "left" then
          ["text-align:" ++ textAlign.getD ""] else []) ++
        (if jsTruthy padding ∧ padding ≠ some "10px" then
          ["padding:" ++ padding.getD ""] else []) ++
        (if jsTruthy margin ∧ margin ≠ some "10px" then
          ["margin:" ++ margin.getD ""] else [])
      let cellStyle :=
        if cellStyles ≠ [] then
          " style=\"" ++ jsJoin ";" cellStyles ++ "\"" else ""
      let t ← flattenCells env icons posts mangle rest
      pure (("<div class=\"" ++ mangleGeneratedClass "cell" mangle ++ "\"" ++
        cellStyle ++ ">" ++ cellContent ++ "</div>") :: t)
  termination_by structural cells
end

/-- `FlattenResult` from `flatten.ts`. -/
structure FlattenResult where
  page : FlattenedPage
  contentBlocks : List FlattenedContentBlock
  breakdown : ModuleBreakdown
  iconBytes : Nat
deriving DecidableEq, Repr

/-- Sum of `getIconBytes` over the icon references (the loop at the top
of `flatten`); `none` models a `throw` on an invalid id. -/
def iconBytesSum : List IconReference → Option Nat
  | [] => some 0
  | ref :: rest => do
      let b ← getIconBytes ref.id
      let t ← iconBytesSum rest
      pure (b + t)

/-- The indexed `forEach` of `flatten` over `input.content`: ordinary
blocks flatten one-to-one, bloglist blocks expand one-to-many. -/
def flattenBlocksTop (env : JsEnv) (icons : List IconReference)
    (posts : Option (List Post)) (mangle : Bool)
    (blocks : List ContentBlock) (index : Nat) :
    Option (List FlattenedContentBlock) :=
  match blocks with
  | [] => some []
  | .bloglist bb :: rest => do
      let t ← flattenBlocksTop env icons posts mangle rest (index + 1)
      pure (flattenBloglistToItems env (posts.getD []) bb index ++ t)
  | b :: rest => do
      let html ← flattenContentBlock env icons posts mangle b
      let t ← flattenBlocksTop env icons posts mangle rest (index + 1)
      pure ({ html := html, bytes := measureBytes html,
              sourceIndex := index : FlattenedContentBlock } :: t)

/-- The resolved document title: explicit override, else
`"title | siteTitle"`, else the bare title. -/
def resolvedTitle (input : CompilerInput) : String :=
  if jsTruthy input.titleOverride then input.titleOverride.getD ""
  else if jsTruthy input.siteTitle then
    input.title ++ " | " ++ input.siteTitle.getD ""
  else input.title

/-- The `<title>` fragment emitted by `flatten`. -/
def titleHtmlOf (input : CompilerInput) : String :=
  "<title>" ++ escapeHtml (resolvedTitle input) ++ "</title>"

/-- The `<style>` fragment emitted by `flatten` (empty when the trimmed,
mangled rules are empty). -/
def cssHtmlOf (input : CompilerInput) : String :=
  let rawCssRules := match input.css with
    | some css => jsTrim css.rules
    | none => ""
  let cssRules :=
    mangleCssClassSelectors rawCssRules (input.classMangling = some true)
  if cssRules ≠ "" then "<style>" ++ cssRules ++ "</style>" else ""

/-- The favicon `<link>` fragment emitted by `flatten`.  Note: the URL is
interpolated verbatim, without `escapeHtml`. -/
def faviconHtmlOf (input : CompilerInput) : String :=
  if jsTruthy input.favicon then
    "<link rel=\"icon\" href=\"" ++ input.favicon.getD "" ++ "\">"
  else ""

/-- The meta-tag fragment emitted by `flatten`. -/
def metaHtmlOf (input : CompilerInput) : String :=
  match input.meta with
  | none => ""
  | some m =>
      jsJoin "\n"
        ((if jsTruthy m.description then
          ["<meta name=\"description\" content=\"" ++
            escapeHtml (m.description.getD "") ++ "\">"] else []) ++
         (if jsTruthy m.author then
          ["<meta name=\"author\" content=\"" ++
            escapeHtml (m.author.getD "") ++ "\">"] else []))

/-- The navigation fragment emitted by `flatten`. -/
def navigationHtmlOf (input : CompilerInput) : String :=
  match input.navigation with
  | none => ""
  | some nav =>
      "<header><nav>\n" ++
      jsJoin "\n" (nav.items.map (fun item =>
        "<a href=\"" ++ escapeHtml item.href ++ "\">" ++
        escapeHtml item.text ++ "</a>")) ++
      "\n</nav></header>"

/-- The footer fragment emitted by `flatten` (through the sanitizer). -/
def footerHtmlOf (env : JsEnv) (input : CompilerInput) : String :=
  match input.footer with
  | none => ""
  | some f => "<footer>" ++ env.sanitizeHtml f.content ++ "</footer>"

/-- `flatten` from `flatten.ts`: transform validated input into named
fragments, per-block flattened content, and the byte breakdown.  `none`
models an icon-lookup `throw`. -/
def flatten (env : JsEnv) (input : CompilerInput) : Option FlattenResult := do
  let iconBytes ← iconBytesSum input.icons
  let titleHtml := titleHtmlOf input
  let cssHtml := cssHtmlOf input
  let faviconHtml := faviconHtmlOf input
  let metaHtml := metaHtmlOf input
  let headContent :=
    "<meta charset=\"utf-8\">\n<meta name=\"viewport\" content=\"width=device-width,initial-scale=1\">\n"
    ++ titleHtml ++
    (if faviconHtml ≠ "" then "\n" ++ faviconHtml else "") ++
    (if metaHtml ≠ "" then "\n" ++ metaHtml else "") ++
    (if cssHtml ≠ "" then "\n" ++ cssHtml else "")
  let head := "<head>\n" ++ headContent ++ "\n</head>"
  let navigation := navigationHtmlOf input
  let footer := footerHtmlOf env input
  let contentBlocks ← flattenBlocksTop env input.icons input.posts
    (input.classMangling = some true) input.content 0
  let contentHtml := jsJoin "\n" (contentBlocks.map (fun b => b.html))
  let headStructureBytes :=
    measureBytes "<head>\n<meta charset=\"utf-8\">\n<meta name=\"viewport\" content=\"width=device-width,initial-scale=1\">\n" +
    (if faviconHtml ≠ "" then measureBytes "\n" else 0) +
    (if metaHtml ≠ "" then measureBytes "\n" else 0) +
    (if cssHtml ≠ "" then measureBytes "\n" else 0) +
    measureBytes "\n</head>"
  let base :=
    measureBytes "<!DOCTYPE html>" + measureBytes "\n" +
    measureBytes "<html lang=\"en\">" + measureBytes "\n" +
    headStructureBytes + measureBytes "\n" +
    measureBytes "<body>" + measureBytes "\n" +
    measureBytes "<main>" + measureBytes "\n" +
    measureBytes "</main>" + measureBytes "\n" +
    measureBytes "</body>" + measureBytes "\n" +
    measureBytes "</html>" +
    (if navigation ≠ "" then measureBytes "\n" else 0) +
    (if contentHtml ≠ "" then measureBytes "\n" else 0) +
    (if footer ≠ "" then measureBytes "\n" else 0)
  let breakdown : ModuleBreakdown :=
    { base := base
      title := measureBytes titleHtml
      favicon := measureBytes faviconHtml
      meta := measureBytes metaHtml
      css := measureBytes cssHtml
      navigation := measureBytes navigation
      footer := measureBytes footer
      pagination := 0
      icons := iconBytes
      content := measureBytes contentHtml }
  let page : FlattenedPage :=
    { doctype := "<!DOCTYPE html>"
      htmlOpen := "<html lang=\"en\">"
      head := head
      bodyOpen := "<body>"
      navigation := navigation
      mainOpen := "<main>"
      content := contentHtml
      mainClose := "</main>"
      footer := footer
      bodyClose := "</body>"
      htmlClose := "</html>" }
  pure { page := page, contentBlocks := contentBlocks,
         breakdown := breakdown, iconBytes := iconBytes }

/-- `assemblePageWithContent` from `flatten.ts`: join the structural
fragments with single line feeds (conditionally including navigation,
content, pagination and footer), then normalize line endings. -/
def assemblePageWithContent (page : FlattenedPage) (contentHtml : String)
    (paginationHtml : String) : String :=
  normalizeLineEndings (jsJoin "\n"
    ([page.doctype, page.htmlOpen, page.head, page.bodyOpen] ++
     (if page.navigation ≠ "" then [page.navigation] else []) ++
     [page.mainOpen] ++
     (if contentHtml ≠ "" then [contentHtml] else []) ++
     (if paginationHtml ≠ "" then [paginationHtml] else []) ++
     [page.mainClose] ++
     (if page.footer ≠ "" then [page.footer] else []) ++
     [page.bodyClose, page.htmlClose]))

/-- Link filename of page `i` (`slug.html` for page 1, `slug-i.html`
otherwise). -/
def pageFileName (baseSlug : String) (i : Nat) : String :=
  if i = 1 then baseSlug ++ ".html"
  else baseSlug ++ "-" ++ toString i ++ ".html"

/-- One entry of the pagination navigation: the current page renders as a
`<span>`, every other page as a full link. -/
def navLink (baseSlug : String) (currentPage i : Nat) : String :=
  if i = currentPage then "<span>" ++ toString i ++ "</span>"
  else "<a href=\"" ++ pageFileName baseSlug i ++ "\">" ++ toString i ++ "</a>"

/-- `generatePaginationNav` from `paginate.ts` (finite page count). -/
def generatePaginationNav (baseSlug : String)
    (currentPage totalPages : Nat) : String :=
  if totalPages ≤ 1 then ""
  else
    "<div class=\"pagination\">\n" ++
    jsJoin "\n" ((List.range' 1 totalPages).map (navLink baseSlug currentPage)) ++
    "\n</div>"

/-- `calculateFixedOverhead` from `paginate.ts`: every category except
content and pagination. -/
def calculateFixedOverhead (b : ModuleBreakdown) : Nat :=
  b.base + b.title + b.favicon + b.meta + b.css + b.navigation +
  b.footer + b.icons

/-- `BLOGLIST_WRAPPER_OPEN`. -/
def BLOGLIST_WRAPPER_OPEN : String := "<ul class=\"posts\">\n"

/-- `BLOGLIST_WRAPPER_CLOSE`. -/
def BLOGLIST_WRAPPER_CLOSE : String := "\n</ul>"

/-- `BLOGLIST_WRAPPER_BYTES`. -/
def BLOGLIST_WRAPPER_BYTES : Nat :=
  measureBytes BLOGLIST_WRAPPER_OPEN + measureBytes BLOGLIST_WRAPPER_CLOSE

/-- Loop state machine of `assembleContentHtml`: build the part list,
wrapping each contiguous run of bloglist items in one `<ul>`. -/
def assembleContentParts (blocks : List FlattenedContentBlock)
    (inBloglist : Bool) (items : List String) (parts : List String) :
    List String :=
  match blocks with
  | [] =>
      if inBloglist then
        parts ++ [BLOGLIST_WRAPPER_OPEN ++ jsJoin "\n" items ++
          BLOGLIST_WRAPPER_CLOSE]
      else parts
  | b :: rest =>
      if b.blockType = some .bloglistItem then
        if inBloglist then
          assembleContentParts rest true (items ++ [b.html]) parts
        else assembleContentParts rest true [b.html] parts
      else
        let parts :=
          if inBloglist then
            parts ++ [BLOGLIST_WRAPPER_OPEN ++ jsJoin "\n" items ++
              BLOGLIST_WRAPPER_CLOSE]
          else parts
        assembleContentParts rest false [] (parts ++ [b.html])

/-- `assembleContentHtml` from `paginate.ts`. -/
def assembleContentHtml (blocks : List FlattenedContentBlock) : String :=
  match blocks with
  | [] => ""
  | _ => jsJoin "\n" (assembleContentParts blocks false [] [])

/-- `calculateBloglistWrapperOverhead` from `paginate.ts`: wrapper bytes
charged once per contiguous run of bloglist items. -/
def calculateBloglistWrapperOverhead
    (blocks : List FlattenedContentBlock) : Nat :=
  go blocks false 0
where
  go : List FlattenedContentBlock → Bool → Nat → Nat
    | [], _, acc => acc
    | b :: rest, inBl, acc =>
        if b.blockType = some .bloglistItem then
          if inBl then go rest true acc
          else go rest true (acc + BLOGLIST_WRAPPER_BYTES)
        else go rest false acc

/-- The value of the `estimatedPages` variable.  JavaScript numbers make
`Math.ceil(x / 0)` equal `Infinity` for `x > 0` and `NaN` for `x = 0`;
both survive `Math.max(2, ·)`. -/
inductive JsEst where
  | fin (n : Nat)
  | inf
  | nan
deriving DecidableEq, Repr

/-- The initial page-count estimate
(`Math.max(2, Math.ceil(tcwn / (SIZE_LIMIT - fixedOverhead - 100)))`),
with exact JavaScript division semantics at zero and below. -/
def initialEstimate (tcwn fixedOverhead : Nat) : JsEst :=
  let d : Int := (SIZE_LIMIT : Int) - fixedOverhead - 100
  if 0 < d then .fin (max 2 ((tcwn + d.toNat - 1) / d.toNat))
  else if d < 0 then .fin 2
  else if 0 < tcwn then .inf
  else .nan

/-- `generatePaginationNav` evaluated at the `estimatedPages` variable:
with an `Infinity` bound the `for` loop never exits (`none`); with `NaN`
the `totalPages <= 1` guard and the loop condition are both false,
yielding an empty link list. -/
def navAtEstimate (baseSlug : String) (currentPage : Nat) (est : JsEst) :
    Option String :=
  match est with
  | .fin n => some (generatePaginationNav baseSlug currentPage n)
  | .inf => none
  | .nan => some ("<div class=\"pagination\">\n" ++ jsJoin "\n" [] ++ "\n</div>")

/-- `PaginatedPage` from `paginate.ts`. -/
structure PaginatedPage where
  pageNumber : Nat
  contentBlocks : List FlattenedContentBlock
  contentHtml : String
  paginationHtml : String
  breakdown : ModuleBreakdown
deriving DecidableEq, Repr

/-- Emission of one packed page (the `pages.push` sites). -/
def emitPackedPage (bd : ModuleBreakdown) (pageNumber : Nat)
    (blocks : List FlattenedContentBlock) (navHtml : String) :
    PaginatedPage :=
  let cH := assembleContentHtml blocks
  { pageNumber := pageNumber
    contentBlocks := blocks
    contentHtml := cH
    paginationHtml := navHtml
    breakdown :=
      { bd with
        content := measureBytes cH
        pagination := measureBytes navHtml } }

/-- Outcome of one greedy packing pass over the blocks. -/
inductive PackOutcome where
  | diverged
  | tooLarge (blockIndex blockSize : Nat) (availableBudget : Int)
  | packed (pages : List PaginatedPage)
deriving DecidableEq, Repr

/-- The greedy packing `for` loop of `paginate`, including the final-page
emission after the loop. -/
def packGo (slug : String) (bd : ModuleBreakdown) (fixed : Nat)
    (est : JsEst) (blocks : List FlattenedContentBlock)
    (pages : List PaginatedPage) (cur : List FlattenedContentBlock)
    (curBytes : Nat) (curHasBL : Bool) (pageNumber : Nat) : PackOutcome :=
  match blocks with
  | [] =>
      match cur with
      | [] => .packed pages
      | _ =>
          match navAtEstimate slug pageNumber est with
          | none => .diverged
          | some nav => .packed (pages ++ [emitPackedPage bd pageNumber cur nav])
  | b :: rest =>
      match navAtEstimate slug pageNumber est with
      | none => .diverged
      | some nav =>
          let budget : Int := (SIZE_LIMIT : Int) - fixed - measureBytes nav
          let newline : Nat := match cur with | [] => 0 | _ => 1
          let cand := curBytes + newline + b.bytes +
            (if b.blockType = some .bloglistItem ∧ ¬curHasBL then
              BLOGLIST_WRAPPER_BYTES else 0)
          if (cand : Int) ≤ budget then
            packGo slug bd fixed est rest pages (cur ++ [b]) cand
              (b.blockType = some .bloglistItem) pageNumber
          else
            match cur with
            | [] => .tooLarge b.sourceIndex b.bytes budget
            | _ =>
                packGo slug bd fixed est rest
                  (pages ++ [emitPackedPage bd pageNumber cur nav]) [b]
                  (b.bytes + (if b.blockType = some .bloglistItem then
                    BLOGLIST_WRAPPER_BYTES else 0))
                  (b.blockType = some .bloglistItem) (pageNumber + 1)

/-- `PaginationResult` from `paginate.ts`. -/
inductive PaginationResult where
  | success (pages : List PaginatedPage)
  | failure (error : CompilerError)
deriving DecidableEq, Repr

/-- `paginate`'s behaviour, including the reachable non-termination of
the navigation loop (`diverged`). -/
inductive PaginateOutcome where
  | diverged
  | res (r : PaginationResult)
deriving DecidableEq, Repr

/-- Convergence fix-up after the page count stabilizes: regenerate every
page's navigation with the true final page count. -/
def fixupPages (slug : String) (pages : List PaginatedPage) :
    List PaginatedPage :=
  pages.map (fun p =>
    let nav := generatePaginationNav slug p.pageNumber pages.length
    { p with paginationHtml := nav,
             breakdown := { p.breakdown with pagination := measureBytes nav } })

/-- The bounded fixed-point `while` loop of `paginate`.  `fuel` counts
the remaining iterations (starting at `MAX_PAGINATION_ITERATIONS`),
`iter` the completed ones. -/
def paginateLoop (slug : String) (bd : ModuleBreakdown) (fixed : Nat)
    (blocks : List FlattenedContentBlock) :
    Nat → JsEst → Nat → Nat → PaginateOutcome
  | 0, _, _, _ =>
      .res (.failure (.PAGINATION_NO_CONVERGENCE MAX_PAGINATION_ITERATIONS))
  | fuel + 1, est, prev, iter =>
      match packGo slug bd fixed est blocks [] [] 0 false 1 with
      | .diverged => .diverged
      | .tooLarge i s budget =>
          .res (.failure (.PAGINATION_BLOCK_TOO_LARGE i s budget))
      | .packed pages =>
          if pages.length = prev then
            if pages.any (fun p => totalFromBreakdown p.breakdown > SIZE_LIMIT)
            then .res (.failure (.PAGINATION_NO_CONVERGENCE (iter + 1)))
            else .res (.success (fixupPages slug pages))
          else
            paginateLoop slug bd fixed blocks fuel (.fin pages.length)
              pages.length (iter + 1)

/-- `paginate` from `paginate.ts`.  The `page` parameter is accepted and
unused, as in the source. -/
def paginate (baseSlug : String) (_page : FlattenedPage)
    (contentBlocks : List FlattenedContentBlock)
    (baseBreakdown : ModuleBreakdown) (allowPagination : Bool) :
    PaginateOutcome :=
  let fixed := calculateFixedOverhead baseBreakdown
  let totalContentBytes := (contentBlocks.map (fun b => b.bytes)).sum
  let contentNewlines := contentBlocks.length - 1
  let tcwn := totalContentBytes + contentNewlines
  let wrap := calculateBloglistWrapperOverhead contentBlocks
  if fixed + tcwn + wrap ≤ SIZE_LIMIT then
    let cH := assembleContentHtml contentBlocks
    .res (.success
      [{ pageNumber := 1
         contentBlocks := contentBlocks
         contentHtml := cH
         paginationHtml := ""
         breakdown :=
           { baseBreakdown with
             content := measureBytes cH
             pagination := 0 } }])
  else if ¬ allowPagination then
    .res (.failure (.PAGINATION_DISABLED (fixed + tcwn) SIZE_LIMIT))
  else
    paginateLoop baseSlug baseBreakdown fixed contentBlocks
      MAX_PAGINATION_ITERATIONS (initialEstimate tcwn fixed) 0 0

/-- `paginatedSlug` from `paginate.ts`. -/
def paginatedSlug (baseSlug : String) (pageNumber : Nat) : String :=
  if pageNumber = 1 then baseSlug
  else baseSlug ++ "-" ++ toString pageNumber

/-- Fixed overhead of a page's breakdown as computed in `compile`
(every category except content, pagination included). -/
def pageFixedOverhead (b : ModuleBreakdown) : Nat :=
  b.base + b.title + b.favicon + b.meta + b.css + b.navigation +
  b.footer + b.icons + b.pagination

/-- The first content block whose size alone exceeds the available
budget, as scanned by `compile` (`oversizedBlock`). -/
def firstOversizedBlock (blocks : List FlattenedContentBlock)
    (budget : Int) : Option OversizedBlock :=
  (blocks.find? (fun b => budget < (b.bytes : Int))).map
    (fun b => { index := b.sourceIndex, size := b.bytes,
                availableBudget := budget })

/-- Stage 5 of `compile`: per page, assemble the final HTML, measure and
hash it, and re-verify the byte ceiling; the first violation aborts with
`SIZE_LIMIT_EXCEEDED`. -/
def emitPages (env : JsEnv) (slugBase : String) (page : FlattenedPage)
    (totalPages : Nat) :
    List PaginatedPage →
    Except CompilerError (List CompiledPage × List PageMeasurement)
  | [] => .ok ([], [])
  | pp :: rest =>
      let slug := paginatedSlug slugBase pp.pageNumber
      let html := assemblePageWithContent page pp.contentHtml pp.paginationHtml
      let bytes := measureBytes html
      if SIZE_LIMIT < bytes then
        let budget : Int := (SIZE_LIMIT : Int) - pageFixedOverhead pp.breakdown
        .error (.SIZE_LIMIT_EXCEEDED bytes SIZE_LIMIT pp.breakdown
          (firstOversizedBlock pp.contentBlocks budget))
      else
        match emitPages env slugBase page totalPages rest with
        | .error e => .error e
        | .ok (ps, ms) =>
            .ok ({ slug := slug, pageNumber := pp.pageNumber,
                   totalPages := totalPages, html := html, bytes := bytes,
                   hash := env.computeHash html } :: ps,
                 createPageMeasurement slug pp.breakdown :: ms)

/-- The observable behaviour of one `compile` call: a returned result, an
uncaught icon-lookup exception, or non-termination inside `paginate`. -/
inductive CompileOutcome where
  | ok (r : CompilerResult)
  | iconPanic
  | diverged
deriving DecidableEq, Repr

/-- `compile` from `compiler.ts`: validate, flatten, measure, paginate,
emit. -/
def compile (env : JsEnv) (input : CompilerInput) : CompileOutcome :=
  match validateInput input with
  | .invalid e => .ok (.failure input.buildId env.now e none)
  | .valid =>
  match flatten env input with
  | none => .iconPanic
  | some fr =>
    let totalBytes := totalFromBreakdown fr.breakdown
    if SIZE_LIMIT < totalBytes ∧ ¬ input.allowPagination then
      let budget : Int := (SIZE_LIMIT : Int) - pageFixedOverhead fr.breakdown
      .ok (.failure input.buildId env.now
        (.SIZE_LIMIT_EXCEEDED totalBytes SIZE_LIMIT fr.breakdown
          (firstOversizedBlock fr.contentBlocks budget))
        (some (createPageMeasurement input.slug fr.breakdown)))
    else
      match paginate input.slug fr.page fr.contentBlocks fr.breakdown
        input.allowPagination with
      | .diverged => .diverged
      | .res (.failure e) =>
          .ok (.failure input.buildId env.now e
            (some (createPageMeasurement input.slug fr.breakdown)))
      | .res (.success pgs) =>
          match emitPages env input.slug fr.page pgs.length pgs with
          | .error e => .ok (.failure input.buildId env.now e none)
          | .ok (pages, ms) =>
              .ok (.success input.buildId env.now pages ms
                { pageCount := pages.length
                  totalBytes := (pages.map (fun p => p.bytes)).sum
                  largestPage := (pages.map (fun p => p.bytes)).max?
                  smallestPage := (pages.map (fun p => p.bytes)).min? })

/-!
Claim theorems.  Concrete fixtures shared by several claims first.
-/

/-- An all-empty `FlattenedPage` (the `page` argument of `paginate` is
unused by the source, so its value is irrelevant). -/
def emptyFlatPage : FlattenedPage :=
  { doctype := ""
    htmlOpen := ""
    head := ""
    bodyOpen := ""
    navigation := ""
    mainOpen := ""
    content := ""
    mainClose := ""
    footer := ""
    bodyClose := ""
    htmlClose := "" }

/-- A breakdown whose only nonzero category is `base`. -/
def baseOnlyBreakdown (n : Nat) : ModuleBreakdown :=
  { base := n, title := 0, favicon := 0, meta := 0, css := 0,
    navigation := 0, footer := 0, pagination := 0, icons := 0, content := 0 }

/-- A flattened paragraph block of exactly `n` bytes (`n ≥ 7`). -/
def asciiBlock (n idx : Nat) : FlattenedContentBlock :=
  { html := "<p>" ++ String.mk (List.replicate (n - 7) 'a') ++ "</p>",
    bytes := n, sourceIndex := idx }

/-- C3 failing input: fixed overhead of exactly
`SIZE_LIMIT - 100 = 14236` bytes makes the estimate divisor
`SIZE_LIMIT - fixedOverhead - 100` zero, so `Math.ceil(200 / 0)` is
`Infinity` and the link loop of `generatePaginationNav` never exits. -/
def c3Blocks : List FlattenedContentBlock := [asciiBlock 200 0]

set_option maxRecDepth 4000 in
/-- C3: the claim states that `paginate` always terminates, with the
fixed-point loop bounded by 10 iterations.  The loop is indeed bounded,
but `paginate` does not always terminate: at fixed overhead 14236 the
initial page-count estimate is `Infinity` (division by zero) and the
navigation-generation loop diverges.  This theorem evaluates the embedded
code at the failing input: the outcome is the divergence marker, and the
input genuinely requires pagination (its block is a real 200-byte
fragment). -/
theorem c3_paginate_diverges :
    paginate "p" emptyFlatPage c3Blocks (baseOnlyBreakdown 14236) true
      = .diverged ∧
    measureBytes (asciiBlock 200 0).html = 200 ∧
    initialEstimate 200 14236 = .inf := by
  refine ⟨?_, ?_, ?_⟩ <;> decide

/-- C4 counterexample input: a small first block, then a block whose 200
bytes alone exceed every per-page budget (fixed overhead 14150). -/
def c4Blocks : List FlattenedContentBlock := [asciiBlock 10 0, asciiBlock 200 1]

set_option maxRecDepth 8000 in
/-- C4 counterexample: the claim says a single flattened block that alone
exceeds the per-page budget makes `paginate` fail with
`PAGINATION_BLOCK_TOO_LARGE` identifying that block.  Here block index 1
(200 bytes, real HTML) exceeds the per-page budget at both page-count
estimates the loop uses (3, then 2), yet `paginate` returns
`PAGINATION_NO_CONVERGENCE` instead: the too-large check only fires when
the current page is empty, which happens only for the first block. -/
theorem c4_counterexample :
    paginate "p" emptyFlatPage c4Blocks (baseOnlyBreakdown 14150) true
      = .res (.failure (.PAGINATION_NO_CONVERGENCE 2)) ∧
    ((SIZE_LIMIT : Int) - 14150 -
      measureBytes (generatePaginationNav "p" 1 3) < 200) ∧
    ((SIZE_LIMIT : Int) - 14150 -
      measureBytes (generatePaginationNav "p" 2 2) < 200) ∧
    (asciiBlock 200 1).bytes = 200 ∧
    measureBytes (asciiBlock 200 1).html = 200 := by
  refine ⟨?_, ?_, ?_, ?_, ?_⟩ <;> decide

theorem packGo_nil (slug : String) (bd : ModuleBreakdown) (fixed : Nat)
    (est : JsEst) (pages : List PaginatedPage)
    (cur : List FlattenedContentBlock) (curBytes : Nat) (curHasBL : Bool)
    (pageNumber : Nat) :
    packGo slug bd fixed est [] pages cur curBytes curHasBL pageNumber
      = (match cur with
         | [] => .packed pages
         | _ =>
             match navAtEstimate slug pageNumber est with
             | none => .diverged
             | some nav =>
                 .packed (pages ++ [emitPackedPage bd pageNumber cur nav])) :=
  rfl

theorem packGo_cons (slug : String) (bd : ModuleBreakdown) (fixed : Nat)
    (est : JsEst) (b : FlattenedContentBlock)
    (rest : List FlattenedContentBlock) (pages : List PaginatedPage)
    (cur : List FlattenedContentBlock) (curBytes : Nat) (curHasBL : Bool)
    (pageNumber : Nat) :
    packGo slug bd fixed est (b :: rest) pages cur curBytes curHasBL
      pageNumber
      = (match navAtEstimate slug pageNumber est with
         | none => .diverged
         | some nav =>
             let budget : Int := (SIZE_LIMIT : Int) - fixed - measureBytes nav
             let newline : Nat := match cur with | [] => 0 | _ => 1
             let cand := curBytes + newline + b.bytes +
               (if b.blockType = some .bloglistItem ∧ ¬curHasBL then
                 BLOGLIST_WRAPPER_BYTES else 0)
             if (cand : Int) ≤ budget then
               packGo slug bd fixed est rest pages (cur ++ [b]) cand
                 (b.blockType = some .bloglistItem) pageNumber
             else
               match cur with
               | [] => .tooLarge b.sourceIndex b.bytes budget
               | _ =>
                   packGo slug bd fixed est rest
                     (pages ++ [emitPackedPage bd pageNumber cur nav]) [b]
                     (b.bytes + (if b.blockType = some .bloglistItem then
                       BLOGLIST_WRAPPER_BYTES else 0))
                     (b.blockType = some .bloglistItem) (pageNumber + 1)) :=
  rfl

/-- Order-preserving atomicity invariant of the greedy packing loop: the
blocks of the packed pages are exactly the already-emitted blocks, the
current page, and the remaining input, in order. -/
theorem packGo_packed_join (slug : String) (bd : ModuleBreakdown)
    (fixed : Nat) (est : JsEst) (blocks : List FlattenedContentBlock) :
    ∀ pages cur curBytes curHasBL pageNumber ps,
      packGo slug bd fixed est blocks pages cur curBytes curHasBL pageNumber
        = .packed ps →
      (ps.map (fun p => p.contentBlocks)).flatten
        = (pages.map (fun p => p.contentBlocks)).flatten ++ cur ++ blocks := by
  induction blocks with
  | nil =>
      intro pages cur curBytes curHasBL pageNumber ps h
      rw [packGo_nil] at h
      cases cur with
      | nil => cases h; simp
      | cons c cs =>
          cases hnav : navAtEstimate slug pageNumber est with
          | none => rw [hnav] at h; cases h
          | some nav =>
              rw [hnav] at h
              cases h
              simp [emitPackedPage]
  | cons b rest ih =>
      intro pages cur curBytes curHasBL pageNumber ps h
      rw [packGo_cons] at h
      cases hnav : navAtEstimate slug pageNumber est with
      | none => rw [hnav] at h; cases h
      | some nav =>
          rw [hnav] at h
          dsimp only at h
          cases cur with
          | nil =>
              dsimp only at h
              split at h <;> split at h <;>
                first
                  | cases h
                  | (have hih := ih _ _ _ _ _ _ h
                     simp only [hih]
                     simp [emitPackedPage])
          | cons c cs =>
              dsimp only at h
              split at h <;> split at h <;>
                first
                  | cases h
                  | (have hih := ih _ _ _ _ _ _ h
                     simp only [hih]
                     simp [emitPackedPage])

theorem fixupPages_contentBlocks (slug : String)
    (pages : List PaginatedPage) :
    (fixupPages slug pages).map (fun p => p.contentBlocks)
      = pages.map (fun p => p.contentBlocks) := by
  simp [fixupPages]

theorem paginateLoop_succ (slug : String) (bd : ModuleBreakdown)
    (fixed : Nat) (blocks : List FlattenedContentBlock) (fuel : Nat)
    (est : JsEst) (prev iter : Nat) :
    paginateLoop slug bd fixed blocks (fuel + 1) est prev iter
      = (match packGo slug bd fixed est blocks [] [] 0 false 1 with
         | .diverged => .diverged
         | .tooLarge i s budget =>
             .res (.failure (.PAGINATION_BLOCK_TOO_LARGE i s budget))
         | .packed pages =>
             if pages.length = prev then
               if pages.any (fun p =>
                   totalFromBreakdown p.breakdown > SIZE_LIMIT)
               then .res (.failure (.PAGINATION_NO_CONVERGENCE (iter + 1)))
               else .res (.success (fixupPages slug pages))
             else
               paginateLoop slug bd fixed blocks fuel (.fin pages.length)
                 pages.length (iter + 1)) :=
  rfl

theorem paginateLoop_success_flatten (slug : String) (bd : ModuleBreakdown)
    (fixed : Nat) (blocks : List FlattenedContentBlock) :
    ∀ fuel est prev iter pgs,
      paginateLoop slug bd fixed blocks fuel est prev iter
        = .res (.success pgs) →
      (pgs.map (fun p => p.contentBlocks)).flatten = blocks := by
  intro fuel
  induction fuel with
  | zero =>
      intro est prev iter pgs h
      rw [paginateLoop] at h
      simp at h
  | succ fuel ih =>
      intro est prev iter pgs h
      rw [paginateLoop_succ] at h
      cases hp : packGo slug bd fixed est blocks [] [] 0 false 1 with
      | diverged => rw [hp] at h; simp at h
      | tooLarge i s budget => rw [hp] at h; simp at h
      | packed pages =>
          rw [hp] at h
          dsimp only at h
          split at h
          · split at h
            · simp at h
            · have hpg : pgs = fixupPages slug pages := by
                cases h; rfl
              subst hpg
              rw [fixupPages_contentBlocks]
              have := packGo_packed_join slug bd fixed est blocks
                [] [] 0 false 1 pages hp
              simpa using this
          · exact ih _ _ _ _ h

theorem paginate_success_flatten (slug : String) (page : FlattenedPage)
    (blocks : List FlattenedContentBlock) (bd : ModuleBreakdown)
    (allow : Bool) (pgs : List PaginatedPage)
    (h : paginate slug page blocks bd allow = .res (.success pgs)) :
    (pgs.map (fun p => p.contentBlocks)).flatten = blocks := by
  unfold paginate at h
  dsimp only at h
  split at h
  · cases h; simp
  · split at h
    · simp at h
    · exact paginateLoop_success_flatten slug bd _ blocks _ _ _ _ _ h

theorem paginate_firstBlock_tooLarge (slug : String)
    (page : FlattenedPage) (b : FlattenedContentBlock)
    (rest : List FlattenedContentBlock) (bd : ModuleBreakdown) (e : Nat)
    (hnofit : SIZE_LIMIT <
      calculateFixedOverhead bd +
      ((((b :: rest).map (fun x => x.bytes)).sum + ((b :: rest).length - 1)) +
       calculateBloglistWrapperOverhead (b :: rest)))
    (hest : initialEstimate
      (((b :: rest).map (fun x => x.bytes)).sum + ((b :: rest).length - 1))
      (calculateFixedOverhead bd) = .fin e)
    (hbig : (SIZE_LIMIT : Int) - calculateFixedOverhead bd -
        measureBytes (generatePaginationNav slug 1 e) <
      ((b.bytes + (if b.blockType = some .bloglistItem then
        BLOGLIST_WRAPPER_BYTES else 0) : Nat) : Int)) :
    paginate slug page (b :: rest) bd true
      = .res (.failure (.PAGINATION_BLOCK_TOO_LARGE b.sourceIndex b.bytes
          ((SIZE_LIMIT : Int) - calculateFixedOverhead bd -
           measureBytes (generatePaginationNav slug 1 e)))) := by
  have hpack : packGo slug bd (calculateFixedOverhead bd) (.fin e)
      (b :: rest) [] [] 0 false 1
      = .tooLarge b.sourceIndex b.bytes
          ((SIZE_LIMIT : Int) - calculateFixedOverhead bd -
           measureBytes (generatePaginationNav slug 1 e)) := by
    rw [packGo_cons]
    dsimp only [navAtEstimate]
    simp only [Bool.false_eq_true, not_false_eq_true, and_true, Nat.zero_add]
    rw [if_neg (by omega)]
  unfold paginate
  dsimp only
  rw [if_neg (by omega)]
  rw [if_neg (by simp)]
  rw [hest]
  show paginateLoop slug bd (calculateFixedOverhead bd) (b :: rest)
    (9 + 1) (.fin e) 0 0 = _
  rw [paginateLoop_succ, hpack]

/-- C4 (amended): `PAGINATION_BLOCK_TOO_LARGE` fires only when a block
fails to fit with an empty current page, which happens only for the
first block: if the first block (plus its wrapper cost when it is a
bloglist item) alone exceeds the page-1 budget at the initial finite
estimate, `paginate` fails with `PAGINATION_BLOCK_TOO_LARGE` carrying
that block's source index and byte size.  An oversized block later in
the list is instead placed alone on a fresh page without a budget check
(pagination then fails at the convergence check with
`PAGINATION_NO_CONVERGENCE`, per the counterexample).  Blocks remain
atomic: on success the pages' block lists concatenate, in order, to the
input list, so no block's HTML is ever split. -/
theorem c4_amended :
    (∀ (slug : String) (page : FlattenedPage) (b : FlattenedContentBlock)
       (rest : List FlattenedContentBlock) (bd : ModuleBreakdown) (e : Nat),
      SIZE_LIMIT <
        calculateFixedOverhead bd +
        ((((b :: rest).map (fun x => x.bytes)).sum +
          ((b :: rest).length - 1)) +
         calculateBloglistWrapperOverhead (b :: rest)) →
      initialEstimate
        (((b :: rest).map (fun x => x.bytes)).sum + ((b :: rest).length - 1))
        (calculateFixedOverhead bd) = .fin e →
      (SIZE_LIMIT : Int) - calculateFixedOverhead bd -
          measureBytes (generatePaginationNav slug 1 e) <
        ((b.bytes + (if b.blockType = some .bloglistItem then
          BLOGLIST_WRAPPER_BYTES else 0) : Nat) : Int) →
      paginate slug page (b :: rest) bd true
        = .res (.failure (.PAGINATION_BLOCK_TOO_LARGE b.sourceIndex b.bytes
            ((SIZE_LIMIT : Int) - calculateFixedOverhead bd -
             measureBytes (generatePaginationNav slug 1 e))))) ∧
    (∀ (slug : String) (page : FlattenedPage)
       (blocks : List FlattenedContentBlock) (bd : ModuleBreakdown)
       (allow : Bool) (pgs : List PaginatedPage),
      paginate slug page blocks bd allow = .res (.success pgs) →
      (pgs.map (fun p => p.contentBlocks)).flatten = blocks) :=
  ⟨fun slug page b rest bd e h1 h2 h3 =>
    paginate_firstBlock_tooLarge slug page b rest bd e h1 h2 h3,
   fun slug page blocks bd allow pgs h =>
    paginate_success_flatten slug page blocks bd allow pgs h⟩

set_option maxRecDepth 4000 in
/-- C4 witness: the amended theorem applied at concrete inputs.  A
200-byte first block against 14300 bytes of fixed overhead yields
`PAGINATION_BLOCK_TOO_LARGE` with index 0, size 200 and the negative
page budget; and a concrete two-block success packs the blocks in order
across its pages. -/
theorem c4_witness :
    paginate "p" emptyFlatPage [asciiBlock 200 0] (baseOnlyBreakdown 14300)
      true
      = .res (.failure (.PAGINATION_BLOCK_TOO_LARGE 0 200
          ((SIZE_LIMIT : Int) - calculateFixedOverhead
            (baseOnlyBreakdown 14300) -
           measureBytes (generatePaginationNav "p" 1 2)))) ∧
    (∀ pgs, paginate "p" emptyFlatPage c4Blocks (baseOnlyBreakdown 0) true
        = .res (.success pgs) →
      (pgs.map (fun p => p.contentBlocks)).flatten = c4Blocks) :=
  ⟨c4_amended.1 "p" emptyFlatPage (asciiBlock 200 0) [] (baseOnlyBreakdown 14300)
    2 (by decide) (by decide) (by decide),
   fun pgs h =>
    c4_amended.2 "p" emptyFlatPage c4Blocks (baseOnlyBreakdown 0) true pgs h⟩

/-- C6 counterexample: with base slug `"b"` and 2 total pages, the
navigation fragment for page 1 is 71 bytes and the fragment for page 2
is 69 bytes, refuting "exactly the same UTF-8 byte length": the
current-page `<span>` saves the bytes of that page's link filename plus
two, an amount that differs from page to page. -/
theorem c6_counterexample :
    measureBytes (generatePaginationNav "b" 1 2) = 71 ∧
    measureBytes (generatePaginationNav "b" 2 2) = 69 ∧
    measureBytes (generatePaginationNav "b" 1 2)
      ≠ measureBytes (generatePaginationNav "b" 2 2) := by
  refine ⟨?_, ?_, ?_⟩ <;> decide

theorem sum_map_ite_single (l : List Nat) (p : Nat) (f g : Nat → Nat)
    (hmem : p ∈ l) (hnd : l.Nodup) :
    (l.map (fun i => if i = p then g i else f i)).sum + f p
      = (l.map f).sum + g p := by
  induction l with
  | nil => cases hmem
  | cons a rest ih =>
      by_cases hap : a = p
      · subst hap
        have hnotin : a ∉ rest := (List.nodup_cons.mp hnd).1
        have hmap : rest.map (fun i => if i = a then g i else f i)
            = rest.map f := by
          apply List.map_congr_left
          intro x hx
          exact if_neg (fun hxa : x = a => hnotin (hxa ▸ hx))
        rw [List.map_cons, List.map_cons, List.sum_cons, List.sum_cons,
          hmap, if_pos rfl]
        omega
      · have hmem2 : p ∈ rest := by
          rcases List.mem_cons.mp hmem with h1 | h2
          · exact absurd h1.symm hap
          · exact h2
        have := ih hmem2 (List.nodup_cons.mp hnd).2
        rw [List.map_cons, List.map_cons, List.sum_cons, List.sum_cons,
          if_neg hap]
        omega

theorem measureBytes_navLink_current (baseSlug : String) (i : Nat) :
    measureBytes (navLink baseSlug i i)
      = 13 + measureBytes (toString i) := by
  have hl : navLink baseSlug i i = "<span>" ++ toString i ++ "</span>" := by
    simp [navLink]
  rw [hl]
  repeat rw [measureBytes_append]
  have h1 : measureBytes "<span>" = 6 := by decide
  have h2 : measureBytes "</span>" = 7 := by decide
  omega

theorem measureBytes_navLink_other (baseSlug : String) (cur i : Nat)
    (h : i ≠ cur) :
    measureBytes (navLink baseSlug cur i)
      = 15 + measureBytes (pageFileName baseSlug i)
          + measureBytes (toString i) := by
  simp only [navLink, if_neg h]
  repeat rw [measureBytes_append]
  have h1 : measureBytes "<a href=\"" = 9 := by decide
  have h2 : measureBytes "\">" = 2 := by decide
  have h3 : measureBytes "</a>" = 4 := by decide
  omega

theorem measure_nav_decomp (slug : String) (n p : Nat) (h2 : 2 ≤ n)
    (hp1 : 1 ≤ p) (hpn : p ≤ n) :
    measureBytes (generatePaginationNav slug p n) + 15
        + measureBytes (pageFileName slug p) + measureBytes (toString p)
      = 32 + (n - 1) +
        ((List.range' 1 n).map (fun i =>
          15 + measureBytes (pageFileName slug i) +
          measureBytes (toString i))).sum
        + (13 + measureBytes (toString p)) := by
  have hnle : ¬ n ≤ 1 := by omega
  rw [generatePaginationNav, if_neg hnle]
  rw [measureBytes_append, measureBytes_append]
  have hwo : measureBytes "<div class=\"pagination\">\n" = 25 := by decide
  have hwc : measureBytes "\n</div>" = 7 := by decide
  have hne : (List.range' 1 n).map (navLink slug p) ≠ [] := by
    simp only [ne_eq, List.map_eq_nil_iff]
    intro hnil
    have := congrArg List.length hnil
    simp at this
    omega
  rw [measureBytes_jsJoin_nl _ hne]
  rw [List.map_map]
  have hmap : (List.range' 1 n).map (measureBytes ∘ navLink slug p)
      = (List.range' 1 n).map (fun i =>
          if i = p then 13 + measureBytes (toString i)
          else 15 + measureBytes (pageFileName slug i) +
            measureBytes (toString i)) := by
    apply List.map_congr_left
    intro i _
    by_cases hip : i = p
    · subst hip
      simp only [if_pos rfl, Function.comp_apply]
      exact measureBytes_navLink_current slug i
    · simp only [if_neg hip, Function.comp_apply]
      exact measureBytes_navLink_other slug p i hip
  rw [hmap]
  have hsum := sum_map_ite_single (List.range' 1 n) p
    (fun i => 15 + measureBytes (pageFileName slug i) +
      measureBytes (toString i))
    (fun i => 13 + measureBytes (toString i))
    (by rw [List.mem_range'_1]; omega)
    (List.nodup_range' 1 n)
  have hlen : ((List.range' 1 n).map (navLink slug p)).length = n := by
    simp
  rw [hlen]
  dsimp only at hsum
  omega

/-- C6 (amended): the navigation fragments for two pages of the same
page count are generally NOT byte-equal — the current page renders as a
`<span>` instead of a full link, saving 2 bytes plus the byte length of
that page's link filename.  The corrected relation: fragment bytes plus
own-filename bytes is the same for every page, so two fragments are
byte-equal exactly when the two pages' link filenames have equal length
(e.g. pages 2 and 3, but never page 1 against a later page). -/
theorem c6_amended (baseSlug : String) (n p q : Nat) (h2 : 2 ≤ n)
    (hp1 : 1 ≤ p) (hpn : p ≤ n) (hq1 : 1 ≤ q) (hqn : q ≤ n) :
    measureBytes (generatePaginationNav baseSlug p n)
        + measureBytes (pageFileName baseSlug p)
      = measureBytes (generatePaginationNav baseSlug q n)
        + measureBytes (pageFileName baseSlug q) := by
  have hp := measure_nav_decomp baseSlug n p h2 hp1 hpn
  have hq := measure_nav_decomp baseSlug n q h2 hq1 hqn
  omega

/-- C6 witness: the amended relation applied at base slug `"b"`, 3 total
pages, pages 2 and 3 — whose filenames have equal length, so the
fragments themselves are byte-equal there. -/
theorem c6_witness :
    measureBytes (generatePaginationNav "b" 2 3)
        + measureBytes (pageFileName "b" 2)
      = measureBytes (generatePaginationNav "b" 3 3)
        + measureBytes (pageFileName "b" 3) :=
  c6_amended "b" 3 2 3 (by decide) (by decide) (by decide) (by decide)
    (by decide)

theorem paginateLoop_no_disabled (slug : String) (bd : ModuleBreakdown)
    (fixed : Nat) (blocks : List FlattenedContentBlock) :
    ∀ fuel est prev iter m l,
      paginateLoop slug bd fixed blocks fuel est prev iter
        ≠ .res (.failure (.PAGINATION_DISABLED m l)) := by
  intro fuel
  induction fuel with
  | zero =>
      intro est prev iter m l h
      rw [paginateLoop] at h
      simp at h
  | succ fuel ih =>
      intro est prev iter m l h
      rw [paginateLoop_succ] at h
      cases hp : packGo slug bd fixed est blocks [] [] 0 false 1 with
      | diverged => rw [hp] at h; simp at h
      | tooLarge i s budget => rw [hp] at h; simp at h
      | packed pages =>
          rw [hp] at h
          dsimp only at h
          split at h
          · split at h
            · simp at h
            · simp at h
          · exact ih _ _ _ _ _ h

theorem measureBytes_replicate (n : Nat) (c : Char) :
    measureBytes (String.mk (List.replicate n c)) = n * utf8CharBytes c := by
  simp [measureBytes, List.map_replicate, List.sum_replicate, smul_eq_mul]

/-- C9 fixture: one bloglist-item block of exactly 14336 real bytes with
zero fixed overhead, so the fit check fails only by the 25 wrapper
bytes. -/
def c9Block : FlattenedContentBlock :=
  { html := String.mk (List.replicate 14336 'a'), bytes := 14336,
    sourceIndex := 0, blockType := some .bloglistItem }

set_option maxRecDepth 100000 in
/-- C9: whenever `paginate` fails with `PAGINATION_DISABLED`, its
`measured` field is exactly the fixed overhead plus the blocks' byte sum
plus one separator byte per adjacent pair — excluding the bloglist
wrapper bytes that the preceding fits-on-one-page check does include
(the guard shows the check counted them); and there is a concrete input
— overflow caused solely by wrapper bytes — whose error reports
`measured = 14336 ≤ limit`. -/
theorem c9_disabled_measured :
    (∀ (slug : String) (page : FlattenedPage)
       (blocks : List FlattenedContentBlock) (bd : ModuleBreakdown)
       (allow : Bool) (m l : Nat),
      paginate slug page blocks bd allow
        = .res (.failure (.PAGINATION_DISABLED m l)) →
      m = calculateFixedOverhead bd +
        ((blocks.map (fun b => b.bytes)).sum + (blocks.length - 1)) ∧
      l = SIZE_LIMIT ∧
      SIZE_LIMIT < calculateFixedOverhead bd +
        (((blocks.map (fun b => b.bytes)).sum + (blocks.length - 1)) +
         calculateBloglistWrapperOverhead blocks) ∧
      allow = false) ∧
    (paginate "p" emptyFlatPage [c9Block] (baseOnlyBreakdown 0) false
       = .res (.failure (.PAGINATION_DISABLED 14336 14336)) ∧
     measureBytes c9Block.html = 14336 ∧
     (14336 : Nat) ≤ SIZE_LIMIT) := by
  constructor
  · intro slug page blocks bd allow m l h
    unfold paginate at h
    dsimp only at h
    split at h
    · simp at h
    · split at h
      · rename_i hfit hallow
        simp only [PaginateOutcome.res.injEq, PaginationResult.failure.injEq,
          CompilerError.PAGINATION_DISABLED.injEq] at h
        refine ⟨h.1.symm, h.2.symm, by omega, ?_⟩
        cases allow with
        | false => rfl
        | true => exact absurd rfl hallow
      · exact absurd h (paginateLoop_no_disabled slug bd _ blocks _ _ _ _ m l)
  · refine ⟨by decide, ?_, by decide⟩
    show measureBytes (String.mk (List.replicate 14336 'a')) = 14336
    rw [measureBytes_replicate]
    decide

set_option maxRecDepth 100000 in
/-- C9 witness: the universal part of the theorem applied at the concrete
wrapper-overflow input. -/
theorem c9_witness :
    (14336 : Nat) = calculateFixedOverhead (baseOnlyBreakdown 0) +
      (([c9Block].map (fun b => b.bytes)).sum + ([c9Block].length - 1)) ∧
    (14336 : Nat) = SIZE_LIMIT ∧
    SIZE_LIMIT < calculateFixedOverhead (baseOnlyBreakdown 0) +
      ((([c9Block].map (fun b => b.bytes)).sum + ([c9Block].length - 1)) +
       calculateBloglistWrapperOverhead [c9Block]) ∧
    false = false :=
  c9_disabled_measured.1 "p" emptyFlatPage [c9Block] (baseOnlyBreakdown 0)
    false 14336 14336 (by decide)

theorem validateIconsList_valid (icons : List IconReference) :
    ∀ i, validateIconsList icons i = .valid →
      ∀ ref ∈ icons, isValidIconId ref.id = true := by
  induction icons with
  | nil => intro i _ ref hmem; cases hmem
  | cons icon rest ih =>
      intro i h ref hmem
      rw [validateIconsList] at h
      split at h
      · cases h
      · rename_i hvalid
        rcases List.mem_cons.mp hmem with rfl | hmem2
        · simpa using hvalid
        · exact ih (i + 1) h ref hmem2

theorem validateInput_icons_valid (input : CompilerInput)
    (h : validateInput input = .valid) :
    ∀ ref ∈ input.icons, isValidIconId ref.id = true := by
  unfold validateInput at h
  split at h
  · cases h
  · split at h
    · cases h
    · split at h
      · cases h
      · split at h
        · cases h
        · split at h
          · cases h
          · split at h
            · cases h
            · split at h
              · cases h
              · exact validateIconsList_valid input.icons 0 h

theorem getIconSvg_isSome_of_valid (id : String)
    (h : isValidIconId id = true) : (getIconSvg id).isSome := h

theorem getIconBytes_isSome_of_valid (id : String)
    (h : isValidIconId id = true) : (getIconBytes id).isSome := by
  unfold getIconBytes
  unfold isValidIconId at h
  obtain ⟨v, hv⟩ := Option.isSome_iff_exists.mp h
  rw [hv]
  rfl

theorem iconBytesSum_isSome (icons : List IconReference)
    (h : ∀ ref ∈ icons, isValidIconId ref.id = true) :
    (iconBytesSum icons).isSome := by
  induction icons with
  | nil => rfl
  | cons ref rest ih =>
      rw [iconBytesSum]
      obtain ⟨b, hb⟩ := Option.isSome_iff_exists.mp
        (getIconBytes_isSome_of_valid ref.id (h ref (List.mem_cons_self ref rest)))
      obtain ⟨t, ht⟩ := Option.isSome_iff_exists.mp
        (ih (fun r hr => h r (List.mem_cons_of_mem ref hr)))
      rw [hb, ht]
      rfl

mutual
theorem flattenInlineNode_isSome (icons : List IconReference)
    (placement : String)
    (hic : ∀ ref ∈ icons, isValidIconId ref.id = true)
    (node : InlineNode) (index : Nat) :
    (flattenInlineNode icons placement node index).isSome := by
  cases node with
  | text s => simp [flattenInlineNode]
  | linebreak => simp [flattenInlineNode]
  | bold children =>
      rw [flattenInlineNode]
      obtain ⟨v, hv⟩ := Option.isSome_iff_exists.mp
        (flattenInlineNodesFrom_isSome icons placement hic 0 children)
      rw [hv]; rfl
  | italic children =>
      rw [flattenInlineNode]
      obtain ⟨v, hv⟩ := Option.isSome_iff_exists.mp
        (flattenInlineNodesFrom_isSome icons placement hic 0 children)
      rw [hv]; rfl
  | underline children =>
      rw [flattenInlineNode]
      obtain ⟨v, hv⟩ := Option.isSome_iff_exists.mp
        (flattenInlineNodesFrom_isSome icons placement hic 0 children)
      rw [hv]; rfl
  | strikethrough children =>
      rw [flattenInlineNode]
      obtain ⟨v, hv⟩ := Option.isSome_iff_exists.mp
        (flattenInlineNodesFrom_isSome icons placement hic 0 children)
      rw [hv]; rfl
  | code children =>
      rw [flattenInlineNode]
      obtain ⟨v, hv⟩ := Option.isSome_iff_exists.mp
        (flattenInlineNodesFrom_isSome icons placement hic 0 children)
      rw [hv]; rfl
  | link href children =>
      rw [flattenInlineNode]
      obtain ⟨v, hv⟩ := Option.isSome_iff_exists.mp
        (flattenInlineNodesFrom_isSome icons placement hic 0 children)
      rw [hv]
      cases hfind : icons.find? (fun i =>
          i.placement = placement && i.index = index) with
      | none => rfl
      | some icon =>
          obtain ⟨sv, hsv⟩ := Option.isSome_iff_exists.mp
            (getIconSvg_isSome_of_valid icon.id
              (hic icon (List.mem_of_find?_eq_some hfind)))
          simp only [Option.bind_eq_bind, Option.some_bind, hsv]
          rfl
termination_by 2 * sizeOf node
theorem flattenInlineNodesFrom_isSome (icons : List IconReference)
    (placement : String)
    (hic : ∀ ref ∈ icons, isValidIconId ref.id = true)
    (index : Nat) (nodes : List InlineNode) :
    (flattenInlineNodesFrom icons placement index nodes).isSome := by
  cases nodes with
  | nil => simp [flattenInlineNodesFrom]
  | cons n rest =>
      rw [flattenInlineNodesFrom]
      obtain ⟨h1, hh1⟩ := Option.isSome_iff_exists.mp
        (flattenInlineNode_isSome icons placement hic n index)
      obtain ⟨h2, hh2⟩ := Option.isSome_iff_exists.mp
        (flattenInlineNodesFrom_isSome icons placement hic (index + 1) rest)
      rw [hh1, hh2]
      rfl
termination_by 2 * sizeOf nodes
end

theorem flattenInlineNodes_isSome (icons : List IconReference)
    (placement : String)
    (hic : ∀ ref ∈ icons, isValidIconId ref.id = true)
    (nodes : List InlineNode) :
    (flattenInlineNodes icons placement nodes).isSome := by
  rw [flattenInlineNodes]
  exact flattenInlineNodesFrom_isSome icons placement hic 0 nodes

theorem flattenListItems_isSome (icons : List IconReference)
    (hic : ∀ ref ∈ icons, isValidIconId ref.id = true)
    (items : List (List InlineNode)) :
    (flattenListItems icons items).isSome := by
  induction items with
  | nil => simp [flattenListItems]
  | cons item rest ih =>
      rw [flattenListItems]
      obtain ⟨h1, hh1⟩ := Option.isSome_iff_exists.mp
        (flattenInlineNodes_isSome icons "content" hic item)
      obtain ⟨h2, hh2⟩ := Option.isSome_iff_exists.mp ih
      rw [hh1, hh2]
      rfl

set_option maxHeartbeats 2000000 in
mutual
theorem flattenContentBlock_isSome (env : JsEnv)
    (icons : List IconReference) (posts : Option (List Post))
    (mangle : Bool)
    (hic : ∀ ref ∈ icons, isValidIconId ref.id = true)
    (block : ContentBlock) :
    (flattenContentBlock env icons posts mangle block).isSome := by
  cases block with
  | bloglist b =>
      rw [flattenContentBlock]
      split <;> rfl
  | divider sel => simp [flattenContentBlock]
  | spacer sel height => simp [flattenContentBlock]
  | codeblock sel content => simp [flattenContentBlock]
  | unorderedList sel items =>
      rw [flattenContentBlock]
      obtain ⟨v, hv⟩ := Option.isSome_iff_exists.mp
        (flattenListItems_isSome icons hic items)
      rw [hv]; rfl
  | orderedList sel items =>
      rw [flattenContentBlock]
      obtain ⟨v, hv⟩ := Option.isSome_iff_exists.mp
        (flattenListItems_isSome icons hic items)
      rw [hv]; rfl
  | layout sel columns rows rowGap columnGap className cells =>
      rw [flattenContentBlock]
      obtain ⟨v, hv⟩ := Option.isSome_iff_exists.mp
        (flattenCells_isSome env icons posts mangle hic cells)
      rw [hv]; rfl
  | sectionB sel background color pattern patternColor patternOpacity
      width padding align children =>
      rw [flattenContentBlock]
      obtain ⟨v, hv⟩ := Option.isSome_iff_exists.mp
        (flattenBlockList_isSome env icons posts mangle hic children)
      rw [hv]; rfl
  | heading sel level children =>
      rw [flattenContentBlock]
      obtain ⟨v, hv⟩ := Option.isSome_iff_exists.mp
        (flattenInlineNodes_isSome icons "content" hic children)
      rw [hv]; rfl
  | blockquote sel children =>
      rw [flattenContentBlock]
      obtain ⟨v, hv⟩ := Option.isSome_iff_exists.mp
        (flattenInlineNodes_isSome icons "content" hic children)
      rw [hv]; rfl
  | paragraph sel children =>
      rw [flattenContentBlock]
      obtain ⟨v, hv⟩ := Option.isSome_iff_exists.mp
        (flattenInlineNodes_isSome icons "content" hic children)
      rw [hv]; rfl
termination_by 2 * sizeOf block
theorem flattenBlockList_isSome (env : JsEnv)
    (icons : List IconReference) (posts : Option (List Post))
    (mangle : Bool)
    (hic : ∀ ref ∈ icons, isValidIconId ref.id = true)
    (blocks : List ContentBlock) :
    (flattenBlockList env icons posts mangle blocks).isSome := by
  cases blocks with
  | nil => simp [flattenBlockList]
  | cons b rest =>
      rw [flattenBlockList]
      obtain ⟨h1, hh1⟩ := Option.isSome_iff_exists.mp
        (flattenContentBlock_isSome env icons posts mangle hic b)
      obtain ⟨h2, hh2⟩ := Option.isSome_iff_exists.mp
        (flattenBlockListRest_isSome env icons posts mangle hic rest)
      rw [hh1, hh2]
      rfl
termination_by 2 * sizeOf blocks + 1
theorem flattenBlockListRest_isSome (env : JsEnv)
    (icons : List IconReference) (posts : Option (List Post))
    (mangle : Bool)
    (hic : ∀ ref ∈ icons, isValidIconId ref.id = true)
    (blocks : List ContentBlock) :
    (flattenBlockListRest env icons posts mangle blocks).isSome := by
  cases blocks with
  | nil => simp [flattenBlockListRest]
  | cons b rest =>
      rw [flattenBlockListRest]
      obtain ⟨h1, hh1⟩ := Option.isSome_iff_exists.mp
        (flattenContentBlock_isSome env icons posts mangle hic b)
      obtain ⟨h2, hh2⟩ := Option.isSome_iff_exists.mp
        (flattenBlockListRest_isSome env icons posts mangle hic rest)
      rw [hh1, hh2]
      rfl
termination_by 2 * sizeOf blocks
theorem flattenCells_isSome (env : JsEnv)
    (icons : List IconReference) (posts : Option (List Post))
    (mangle : Bool)
    (hic : ∀ ref ∈ icons, isValidIconId ref.id = true)
    (cells : List LayoutCell) :
    (flattenCells env icons posts mangle cells).isSome := by
  cases cells with
  | nil => simp [flattenCells]
  | cons c rest =>
      cases c with
      | mk textAlign padding margin children =>
          rw [flattenCells]
          obtain ⟨h1, hh1⟩ := Option.isSome_iff_exists.mp
            (flattenBlockList_isSome env icons posts mangle hic children)
          obtain ⟨h2, hh2⟩ := Option.isSome_iff_exists.mp
            (flattenCells_isSome env icons posts mangle hic rest)
          rw [hh1, hh2]
          rfl
termination_by 2 * sizeOf cells
end

theorem flattenBlocksTop_isSome (env : JsEnv)
    (icons : List IconReference) (posts : Option (List Post))
    (mangle : Bool)
    (hic : ∀ ref ∈ icons, isValidIconId ref.id = true)
    (blocks : List ContentBlock) : ∀ index,
    (flattenBlocksTop env icons posts mangle blocks index).isSome := by
  induction blocks with
  | nil => intro index; rfl
  | cons b rest ih =>
      intro index
      cases b with
      | bloglist bb =>
          rw [flattenBlocksTop]
          obtain ⟨t, ht⟩ := Option.isSome_iff_exists.mp (ih (index + 1))
          rw [ht]
          rfl
      | heading sel level children =>
          rw [flattenBlocksTop]
          obtain ⟨h1, hh1⟩ := Option.isSome_iff_exists.mp
            (flattenContentBlock_isSome env icons posts mangle hic
              (.heading sel level children))
          obtain ⟨t, ht⟩ := Option.isSome_iff_exists.mp (ih (index + 1))
          rw [hh1, ht]
          rfl
          intro bb h
          cases h
      | paragraph sel children =>
          rw [flattenBlocksTop]
          obtain ⟨h1, hh1⟩ := Option.isSome_iff_exists.mp
            (flattenContentBlock_isSome env icons posts mangle hic
              (.paragraph sel children))
          obtain ⟨t, ht⟩ := Option.isSome_iff_exists.mp (ih (index + 1))
          rw [hh1, ht]
          rfl
          intro bb h
          cases h
      | blockquote sel children =>
          rw [flattenBlocksTop]
          obtain ⟨h1, hh1⟩ := Option.isSome_iff_exists.mp
            (flattenContentBlock_isSome env icons posts mangle hic
              (.blockquote sel children))
          obtain ⟨t, ht⟩ := Option.isSome_iff_exists.mp (ih (index + 1))
          rw [hh1, ht]
          rfl
          intro bb h
          cases h
      | unorderedList sel items =>
          rw [flattenBlocksTop]
          obtain ⟨h1, hh1⟩ := Option.isSome_iff_exists.mp
            (flattenContentBlock_isSome env icons posts mangle hic
              (.unorderedList sel items))
          obtain ⟨t, ht⟩ := Option.isSome_iff_exists.mp (ih (index + 1))
          rw [hh1, ht]
          rfl
          intro bb h
          cases h
      | orderedList sel items =>
          rw [flattenBlocksTop]
          obtain ⟨h1, hh1⟩ := Option.isSome_iff_exists.mp
            (flattenContentBlock_isSome env icons posts mangle hic
              (.orderedList sel items))
          obtain ⟨t, ht⟩ := Option.isSome_iff_exists.mp (ih (index + 1))
          rw [hh1, ht]
          rfl
          intro bb h
          cases h
      | codeblock sel content =>
          rw [flattenBlocksTop]
          obtain ⟨h1, hh1⟩ := Option.isSome_iff_exists.mp
            (flattenContentBlock_isSome env icons posts mangle hic
              (.codeblock sel content))
          obtain ⟨t, ht⟩ := Option.isSome_iff_exists.mp (ih (index + 1))
          rw [hh1, ht]
          rfl
          intro bb h
          cases h
      | divider sel =>
          rw [flattenBlocksTop]
          obtain ⟨h1, hh1⟩ := Option.isSome_iff_exists.mp
            (flattenContentBlock_isSome env icons posts mangle hic
              (.divider sel))
          obtain ⟨t, ht⟩ := Option.isSome_iff_exists.mp (ih (index + 1))
          rw [hh1, ht]
          rfl
          intro bb h
          cases h
      | spacer sel height =>
          rw [flattenBlocksTop]
          obtain ⟨h1, hh1⟩ := Option.isSome_iff_exists.mp
            (flattenContentBlock_isSome env icons posts mangle hic
              (.spacer sel height))
          obtain ⟨t, ht⟩ := Option.isSome_iff_exists.mp (ih (index + 1))
          rw [hh1, ht]
          rfl
          intro bb h
          cases h
      | layout sel columns rows rowGap columnGap className cells =>
          rw [flattenBlocksTop]
          obtain ⟨h1, hh1⟩ := Option.isSome_iff_exists.mp
            (flattenContentBlock_isSome env icons posts mangle hic
              (.layout sel columns rows rowGap columnGap className cells))
          obtain ⟨t, ht⟩ := Option.isSome_iff_exists.mp (ih (index + 1))
          rw [hh1, ht]
          rfl
          intro bb h
          cases h
      | sectionB sel background color pattern patternColor patternOpacity
          width padding align children =>
          rw [flattenBlocksTop]
          obtain ⟨h1, hh1⟩ := Option.isSome_iff_exists.mp
            (flattenContentBlock_isSome env icons posts mangle hic
              (.sectionB sel background color pattern patternColor
                patternOpacity width padding align children))
          obtain ⟨t, ht⟩ := Option.isSome_iff_exists.mp (ih (index + 1))
          rw [hh1, ht]
          rfl
          intro bb h
          cases h

theorem flatten_isSome (env : JsEnv) (input : CompilerInput)
    (hic : ∀ ref ∈ input.icons, isValidIconId ref.id = true) :
    (flatten env input).isSome := by
  unfold flatten
  obtain ⟨ib, hib⟩ := Option.isSome_iff_exists.mp
    (iconBytesSum_isSome input.icons hic)
  obtain ⟨cb, hcb⟩ := Option.isSome_iff_exists.mp
    (flattenBlocksTop_isSome env input.icons input.posts
      (input.classMangling = some true) hic input.content 0)
  rw [hib, hcb]
  rfl

/-- C10: on any input accepted by `validateInput`, every referenced icon
id is in the fixed whitelist, so the throwing branches of `getIconSvg`
and `getIconBytes` are unreachable during flattening: for every
environment, `flatten` returns a result (its `Option` never misses) and
`compile` never ends in the icon-exception outcome. -/
theorem c10_valid_icons_no_throw (input : CompilerInput)
    (hval : validateInput input = .valid) :
    (∀ ref ∈ input.icons, isValidIconId ref.id = true) ∧
    ∀ env : JsEnv, (flatten env input).isSome ∧
      compile env input ≠ .iconPanic := by
  have hic := validateInput_icons_valid input hval
  refine ⟨hic, fun env => ?_⟩
  have hsome := flatten_isSome env input hic
  refine ⟨hsome, ?_⟩
  unfold compile
  rw [hval]
  obtain ⟨fr, hfr⟩ := Option.isSome_iff_exists.mp hsome
  rw [hfr]
  dsimp only
  split
  · simp
  · split
    · simp
    · simp
    · split <;> simp

/-- C10 witness: a concrete validated input referencing the `check`
icon; the theorem applies and `compile` returns an ordinary result. -/
theorem c10_witness :
    (∀ ref ∈ ([{ id := "check", placement := "content", index := 0 }] :
        List IconReference), isValidIconId ref.id = true) ∧
    ∀ env : JsEnv,
      (flatten env
        { slug := "a", title := "t",
          content := [.paragraph none [.text "x"]],
          icons := [{ id := "check", placement := "content", index := 0 }],
          allowPagination := false, buildId := "b" }).isSome ∧
      compile env
        { slug := "a", title := "t",
          content := [.paragraph none [.text "x"]],
          icons := [{ id := "check", placement := "content", index := 0 }],
          allowPagination := false, buildId := "b" } ≠ .iconPanic :=
  c10_valid_icons_no_throw
    { slug := "a", title := "t",
      content := [.paragraph none [.text "x"]],
      icons := [{ id := "check", placement := "content", index := 0 }],
      allowPagination := false, buildId := "b" }
    (by decide)

/-- C5: for every validated input whose flattened output measures over
the 14336-byte limit and whose pagination flag is false, `compile` fails
with `SIZE_LIMIT_EXCEEDED` carrying the measured total, the limit, the
full breakdown, and — via `firstOversizedBlock`, which is `none` when no
such block exists — the index and size of the first individual block
whose byte size alone exceeds the available content budget (the limit
minus the fixed overhead of every non-content category). -/
theorem c5_size_limit_error (env : JsEnv) (input : CompilerInput)
    (fr : FlattenResult)
    (hval : validateInput input = .valid)
    (hfr : flatten env input = some fr)
    (hover : SIZE_LIMIT < totalFromBreakdown fr.breakdown)
    (hallow : input.allowPagination = false) :
    compile env input
      = .ok (.failure input.buildId env.now
          (.SIZE_LIMIT_EXCEEDED (totalFromBreakdown fr.breakdown) SIZE_LIMIT
            fr.breakdown
            (firstOversizedBlock fr.contentBlocks
              ((SIZE_LIMIT : Int) - pageFixedOverhead fr.breakdown)))
          (some (createPageMeasurement input.slug fr.breakdown))) := by
  unfold compile
  rw [hval, hfr]
  dsimp only
  rw [if_pos ⟨hover, by rw [hallow]; exact Bool.false_ne_true⟩]

/-- C5 witness fixture: a validated input overflowing the limit through
100 whitelisted icon references (16700 icon bytes). -/
def c5Input : CompilerInput :=
  { slug := "a", title := "t",
    content := [.paragraph none [.text "hi"]],
    icons := List.replicate 100
      { id := "check", placement := "footer", index := 0 },
    allowPagination := false, buildId := "b" }

/-- The flatten result of `c5Input`. -/
def c5Fr : FlattenResult :=
  { page :=
      { doctype := "<!DOCTYPE html>"
        htmlOpen := "<html lang=\"en\">"
        head := "<head>\n<meta charset=\"utf-8\">\n<meta name=\"viewport\" content=\"width=device-width,initial-scale=1\">\n<title>t</title>\n</head>"
        bodyOpen := "<body>"
        navigation := ""
        mainOpen := "<main>"
        content := "<p>hi</p>"
        mainClose := "</main>"
        footer := ""
        bodyClose := "</body>"
        htmlClose := "</html>" }
    contentBlocks :=
      [{ html := "<p>hi</p>", bytes := 9, sourceIndex := 0,
         blockType := none }]
    breakdown :=
      { base := 178, title := 16, favicon := 0, meta := 0, css := 0,
        navigation := 0, footer := 0, pagination := 0, icons := 16700,
        content := 9 }
    iconBytes := 16700 }

set_option maxRecDepth 40000 in
/-- C5 witness: the theorem applied at `c5Input`, whose measured total of
16903 bytes exceeds the limit, producing the exact size-limit failure. -/
theorem c5_witness :
    compile defaultEnv c5Input
      = .ok (.failure c5Input.buildId defaultEnv.now
          (.SIZE_LIMIT_EXCEEDED (totalFromBreakdown c5Fr.breakdown)
            SIZE_LIMIT c5Fr.breakdown
            (firstOversizedBlock c5Fr.contentBlocks
              ((SIZE_LIMIT : Int) - pageFixedOverhead c5Fr.breakdown)))
          (some (createPageMeasurement c5Input.slug c5Fr.breakdown))) :=
  c5_size_limit_error defaultEnv c5Input c5Fr (by decide) (by decide)
    (by decide) rfl

theorem emitPages_ok_bytes (env : JsEnv) (slugBase : String)
    (page : FlattenedPage) (totalPages : Nat) :
    ∀ (pps : List PaginatedPage) (ps : List CompiledPage)
      (ms : List PageMeasurement),
      emitPages env slugBase page totalPages pps = .ok (ps, ms) →
      ∀ p ∈ ps, p.bytes = measureBytes p.html ∧ p.bytes ≤ SIZE_LIMIT := by
  intro pps
  induction pps with
  | nil =>
      intro ps ms h p hp
      rw [emitPages] at h
      cases h
      cases hp
  | cons pp rest ih =>
      intro ps ms h p hp
      rw [emitPages] at h
      dsimp only at h
      split at h
      · cases h
      · rename_i hbytes
        cases hrec : emitPages env slugBase page totalPages rest with
        | error e => rw [hrec] at h; cases h
        | ok pair =>
            rw [hrec] at h
            cases pair with
            | mk ps' ms' =>
                dsimp only at h
                cases h
                rcases List.mem_cons.mp hp with rfl | hmem
                · refine ⟨rfl, ?_⟩
                  dsimp only
                  omega
                · exact ih ps' ms' hrec p hmem

/-- C1: whenever `compile` returns a success result, every
`CompiledPage` it contains records exactly the UTF-8 byte count of its
final HTML, and that count is at most 14336 — the stage-5 re-verification
aborts the compilation otherwise. -/
theorem c1_success_pages_within_limit (env : JsEnv)
    (input : CompilerInput) (bid ts : String) (pages : List CompiledPage)
    (ms : List PageMeasurement) (totals : CompileTotals)
    (h : compile env input = .ok (.success bid ts pages ms totals)) :
    ∀ p ∈ pages, p.bytes = measureBytes p.html ∧ p.bytes ≤ SIZE_LIMIT := by
  unfold compile at h
  cases hval : validateInput input with
  | invalid e => rw [hval] at h; simp at h
  | valid =>
      rw [hval] at h
      cases hfl : flatten env input with
      | none => rw [hfl] at h; simp at h
      | some fr =>
          rw [hfl] at h
          dsimp only at h
          split at h
          · simp at h
          · cases hpag : paginate input.slug fr.page fr.contentBlocks
              fr.breakdown input.allowPagination with
            | diverged => rw [hpag] at h; simp at h
            | res r =>
                rw [hpag] at h
                cases r with
                | failure e => simp at h
                | success pgs =>
                    dsimp only at h
                    cases hemit : emitPages env input.slug fr.page
                        pgs.length pgs with
                    | error e => rw [hemit] at h; simp at h
                    | ok pair =>
                        rw [hemit] at h
                        cases pair with
                        | mk ps' ms' =>
                            dsimp only at h
                            rw [CompileOutcome.ok.injEq,
                              CompilerResult.success.injEq] at h
                            obtain ⟨_, _, hpages, _, _⟩ := h
                            subst hpages
                            exact emitPages_ok_bytes env input.slug fr.page
                              pgs.length pgs ps' ms' hemit

/-- C1 witness fixture: the final HTML of the minimal compilation. -/
def c1Html : String :=
  "<!DOCTYPE html>\n<html lang=\"en\">\n<head>\n<meta charset=\"utf-8\">\n<meta name=\"viewport\" content=\"width=device-width,initial-scale=1\">\n<title>t</title>\n</head>\n<body>\n<main>\n<p>hi</p>\n</main>\n</body>\n</html>"

/-- C1 witness fixture: a minimal valid input. -/
def c1Input : CompilerInput :=
  { slug := "a", title := "t",
    content := [.paragraph none [.text "hi"]],
    allowPagination := false, buildId := "b" }

/-- C1 witness fixture: the single compiled page of `c1Input`. -/
def c1Page : CompiledPage :=
  { slug := "a", pageNumber := 1, totalPages := 1, html := c1Html,
    bytes := 203, hash := c1Html }

/-- C1 witness fixture: the breakdown of `c1Input`'s page. -/
def c1Breakdown : ModuleBreakdown :=
  { base := 178, title := 16, favicon := 0, meta := 0, css := 0,
    navigation := 0, footer := 0, pagination := 0, icons := 0,
    content := 9 }

set_option maxRecDepth 40000 in
/-- C1 witness: the theorem applied to the concrete minimal
compilation. -/
theorem c1_witness :
    c1Page.bytes = measureBytes c1Page.html ∧ c1Page.bytes ≤ SIZE_LIMIT :=
  c1_success_pages_within_limit defaultEnv c1Input "b" defaultEnv.now
    [c1Page] [createPageMeasurement "a" c1Breakdown]
    { pageCount := 1, totalBytes := 203, largestPage := some 203,
      smallestPage := some 203 }
    (by decide) c1Page (by simp)

/-- C8 counterexample fixture: one published feed post. -/
def c8Post : Post :=
  { slug := "p1", title := "T", publishedAt := "2020-01-01",
    status := "published", pageType := "post" }

/-- C8 counterexample: with an explicit limit of 0, no post survives the
filter-sort-limit pipeline, yet the expansion emits NO empty-state block
at all (the result is empty): the empty-state block is keyed on the
published filter alone, not on the surviving-post count as the claim
states. -/
theorem c8_counterexample :
    flattenBloglistToItems defaultEnv [c8Post]
      { limit := .num 0, archiveLink := none, selector := none } 0 = [] ∧
    publishedPosts [c8Post] ≠ [] := by
  refine ⟨?_, ?_⟩ <;> decide

/-- C8 (amended): bloglist expansion filters the posts to published,
feed-eligible ones; sorts them stably by publish timestamp descending
(permutation and sortedness proved below); takes the block's limit
(explicit count, the unlimited `null` sentinel meaning all, or the
default of 20 when absent); emits one `bloglist-item`-tagged block per
surviving post; emits exactly one empty-state block when — and only when
— no post passes the published filter (a limit of 0 yields no items and
no empty-state block); and after the items appends the configured
archive-link block or, only in the unlimited case with no archive link,
an end-of-list marker. -/
theorem c8_amended (env : JsEnv) (posts : List Post)
    (block : BloglistBlock) (idx : Nat) :
    (sortPostsDesc env (publishedPosts posts)).Perm
      (publishedPosts posts) ∧
    (sortPostsDesc env (publishedPosts posts)).Pairwise
      (fun a b => env.getTime b.publishedAt ≤ env.getTime a.publishedAt) ∧
    flattenBloglistToItems env posts block idx =
      (match publishedPosts posts with
       | [] =>
           [{ html := emptyStateHtml,
              bytes := measureBytes emptyStateHtml,
              sourceIndex := idx }]
       | _ =>
           let sorted := sortPostsDesc env (publishedPosts posts)
           let limited := sorted.take (bloglistLimit block sorted.length)
           let items := limited.map (fun post =>
             { html := bloglistItemHtml env post
               bytes := measureBytes (bloglistItemHtml env post)
               sourceIndex := idx
               blockType := some .bloglistItem : FlattenedContentBlock })
           match block.archiveLink with
           | some al =>
               items ++ [{ html := archiveLinkHtml al
                           bytes := measureBytes (archiveLinkHtml al)
                           sourceIndex := idx
                           blockType := some .bloglistArchiveLink }]
           | none =>
               if block.limit = .nullv then
                 items ++ [{ html := endOfListHtml
                             bytes := measureBytes endOfListHtml
                             sourceIndex := idx
                             blockType := some .bloglistArchiveLink }]
               else items) := by
  refine ⟨List.mergeSort_perm _ _, ?_, ?_⟩
  · have hs := @List.sorted_mergeSort Post
      (fun a b =>
        decide (env.getTime b.publishedAt ≤ env.getTime a.publishedAt))
      (fun a b c hab hbc => by
        simp only [decide_eq_true_eq] at *
        exact le_trans hbc hab)
      (fun a b => by
        simp only [Bool.or_eq_true, decide_eq_true_eq]
        exact le_total (env.getTime b.publishedAt)
          (env.getTime a.publishedAt))
      (publishedPosts posts)
    exact hs.imp (fun h => by simpa using h)
  · unfold flattenBloglistToItems
    cases hpub : publishedPosts posts with
    | nil => rfl
    | cons p rest => rfl

/-- C7 counterexample fixture: a validated input whose favicon URL
carries active markup. -/
def c7Input : CompilerInput :=
  { slug := "a", title := "t",
    content := [.paragraph none [.text "hi"]],
    favicon := some "x\"><script>alert(1)</script>",
    allowPagination := false, buildId := "b" }

/-- Concatenated HTML of a successful outcome's pages (empty for any
other outcome). -/
def outcomePagesHtml (o : CompileOutcome) : String :=
  match o with
  | .ok (.success _ _ pages _ _) => jsJoin "" (pages.map (fun p => p.html))
  | _ => ""

set_option maxRecDepth 40000 in
/-- C7 counterexample: the favicon URL is interpolated verbatim — for a
validated input whose favicon contains `<script>` markup, the compiled
page's HTML contains that markup raw, while the claimed `escapeHtml`
treatment would have left no `<` at all.  So not every listed
user-supplied text field is escaped before emission. -/
theorem c7_counterexample :
    validateInput c7Input = .valid ∧
    faviconHtmlOf c7Input
      = "<link rel=\"icon\" href=\"x\"><script>alert(1)</script>\">" ∧
    containsSub (outcomePagesHtml (compile defaultEnv c7Input))
      "<script>alert(1)</script>" = true ∧
    containsSub (escapeHtml "x\"><script>alert(1)</script>") "<script>"
      = false := by
  refine ⟨?_, ?_, ?_, ?_⟩ <;> decide

theorem escChar_no_specials (c0 : Char) :
    ∀ c ∈ (escChar c0).data,
      c ≠ '<' ∧ c ≠ '>' ∧ c ≠ '"' ∧ c ≠ Char.ofNat 39 := by
  unfold escChar
  split
  · decide
  · split
    · decide
    · split
      · decide
      · split
        · decide
        · split
          · decide
          · rename_i h1 h2 h3 h4 h5
            intro c hc
            simp only [String.singleton] at hc
            rcases List.mem_singleton.mp hc with rfl
            exact ⟨h2, h3, h4, h5⟩

theorem escapeHtml_no_specials (s : String) :
    ∀ c ∈ (escapeHtml s).data,
      c ≠ '<' ∧ c ≠ '>' ∧ c ≠ '"' ∧ c ≠ Char.ofNat 39 := by
  unfold escapeHtml
  generalize s.data = l
  induction l with
  | nil => intro c hc; cases hc
  | cons c0 rest ih =>
      intro c hc
      simp only [List.map_cons, concatStrings, String.data_append,
        List.mem_append] at hc
      rcases hc with h | h
      · exact escChar_no_specials c0 c h
      · exact ih c h

/-- Count of raw `<` characters in a string. -/
def countLt (s : String) : Nat := s.data.count '<'

theorem countLt_append (a b : String) :
    countLt (a ++ b) = countLt a + countLt b := by
  simp [countLt]

theorem countLt_escapeHtml (s : String) : countLt (escapeHtml s) = 0 :=
  List.count_eq_zero.mpr
    (fun h => (escapeHtml_no_specials s '<' h).1 rfl)

theorem countLt_jsJoin_sep0 (sep : String) (hsep : countLt sep = 0)
    (parts : List String) :
    countLt (jsJoin sep parts) = (parts.map countLt).sum := by
  induction parts with
  | nil => simp [jsJoin, countLt]
  | cons s rest ih =>
      cases rest with
      | nil => simp [jsJoin]
      | cons t ts =>
          have hne : jsJoin sep (s :: t :: ts)
              = s ++ sep ++ jsJoin sep (t :: ts) := rfl
          rw [hne, countLt_append, countLt_append, hsep, ih]
          simp

theorem countLt_selectorAttrs (sel : Option String) :
    countLt (selectorAttrs sel []) = 0 := by
  unfold selectorAttrs
  dsimp only
  rw [countLt_append]
  have h1 : countLt " id=\"" = 0 := by decide
  have h2 : countLt " class=\"" = 0 := by decide
  have h3 : countLt "\"" = 0 := by decide
  have h4 : countLt "" = 0 := by decide
  split <;> split <;>
    simp_all [countLt_append, countLt_escapeHtml]

theorem sum_map_const_two {α : Type} (l : List α) :
    (l.map (fun _ => 2)).sum = 2 * l.length := by
  induction l with
  | nil => rfl
  | cons a rest ih => simp [ih]; omega

theorem countLt_navigationHtml (input : CompilerInput)
    (nav : NavigationModule) (h : input.navigation = some nav) :
    countLt (navigationHtmlOf input) = 4 + 2 * nav.items.length := by
  unfold navigationHtmlOf
  rw [h]
  rw [countLt_append, countLt_append]
  have h1 : countLt "<header><nav>\n" = 2 := by decide
  have h2 : countLt "\n</nav></header>" = 2 := by decide
  rw [countLt_jsJoin_sep0 "\n" (by decide)]
  rw [List.map_map]
  have hitems : nav.items.map
      (countLt ∘ fun item =>
        "<a href=\"" ++ escapeHtml item.href ++ "\">" ++
        escapeHtml item.text ++ "</a>")
      = nav.items.map (fun _ => 2) := by
    apply List.map_congr_left
    intro it _
    show countLt ("<a href=\"" ++ escapeHtml it.href ++ "\">" ++
      escapeHtml it.text ++ "</a>") = 2
    repeat rw [countLt_append]
    rw [countLt_escapeHtml, countLt_escapeHtml]
    decide
  rw [hitems, sum_map_const_two, h1, h2]
  omega

theorem countLt_metaHtml (input : CompilerInput) (m : MetaModule)
    (h : input.meta = some m) :
    countLt (metaHtmlOf input)
      = (if jsTruthy m.description then 1 else 0) +
        (if jsTruthy m.author then 1 else 0) := by
  unfold metaHtmlOf
  rw [h]
  rw [countLt_jsJoin_sep0 "\n" (by decide)]
  have h1 : countLt ("<meta name=\"description\" content=\"" ++
      escapeHtml (m.description.getD "") ++ "\">") = 1 := by
    rw [countLt_append, countLt_append, countLt_escapeHtml]
    decide
  have h2 : countLt ("<meta name=\"author\" content=\"" ++
      escapeHtml (m.author.getD "") ++ "\">") = 1 := by
    rw [countLt_append, countLt_append, countLt_escapeHtml]
    decide
  cases hd : jsTruthy m.description <;> cases ha : jsTruthy m.author <;>
    simp [hd, ha, h1, h2]

theorem countLt_codeblock (env : JsEnv) (icons : List IconReference)
    (posts : Option (List Post)) (mangle : Bool) (sel : Option String)
    (content : String) :
    (flattenContentBlock env icons posts mangle
      (.codeblock sel content)).map countLt = some 4 := by
  rw [flattenContentBlock]
  show some (countLt ("<pre" ++ selectorAttrs sel [] ++ "><code>" ++
    escapeHtml content ++ "</code></pre>")) = some 4
  repeat rw [countLt_append]
  rw [countLt_escapeHtml, countLt_selectorAttrs]
  decide

theorem countLt_bloglistItem (env : JsEnv) (post : Post)
    (h : countLt (env.formatDate post.publishedAt) = 0) :
    countLt (bloglistItemHtml env post) = 6 := by
  unfold bloglistItemHtml
  repeat rw [countLt_append]
  rw [countLt_escapeHtml, countLt_escapeHtml, countLt_escapeHtml, h]
  decide

theorem flattenInlineNode_text (icons : List IconReference)
    (placement : String) (s : String) (i : Nat) :
    flattenInlineNode icons placement (.text s) i = some (escapeHtml s) :=
  rfl

/-- C7 (amended): every listed user-supplied text field EXCEPT the
favicon URL passes through `escapeHtml` before emission, whose output
contains no raw `<`, `>`, `"` or `'` characters at all — so user text
cannot open a tag or escape an attribute: the `<title>` fragment always
has exactly 2 raw `<`, the navigation fragment exactly `4 + 2n` for `n`
links, a codeblock exactly 4, a bloglist item exactly 6 (given a
markup-free locale date), inline text nodes render as `escapeHtml` of
the text; the footer goes through the allow-listed `sanitizeHtml` from
`measure.ts`; the favicon URL, however, is interpolated verbatim without
escaping (the counterexample exploits this). -/
theorem c7_amended :
    (∀ s : String, ∀ c ∈ (escapeHtml s).data,
      c ≠ '<' ∧ c ≠ '>' ∧ c ≠ '"' ∧ c ≠ Char.ofNat 39) ∧
    (∀ input : CompilerInput, countLt (titleHtmlOf input) = 2) ∧
    (∀ (input : CompilerInput) (nav : NavigationModule),
      input.navigation = some nav →
      countLt (navigationHtmlOf input) = 4 + 2 * nav.items.length) ∧
    (∀ (env : JsEnv) (icons : List IconReference)
       (posts : Option (List Post)) (mangle : Bool) (sel : Option String)
       (content : String),
      (flattenContentBlock env icons posts mangle
        (.codeblock sel content)).map countLt = some 4) ∧
    (∀ (env : JsEnv) (post : Post),
      countLt (env.formatDate post.publishedAt) = 0 →
      countLt (bloglistItemHtml env post) = 6) ∧
    (∀ (icons : List IconReference) (placement s : String) (i : Nat),
      flattenInlineNode icons placement (.text s) i
        = some (escapeHtml s)) ∧
    (∀ (input : CompilerInput) (m : MetaModule), input.meta = some m →
      countLt (metaHtmlOf input)
        = (if jsTruthy m.description then 1 else 0) +
          (if jsTruthy m.author then 1 else 0)) ∧
    (∀ (env : JsEnv) (input : CompilerInput) (f : FooterModule),
      input.footer = some f →
      footerHtmlOf env input
        = "<footer>" ++ env.sanitizeHtml f.content ++ "</footer>") ∧
    (∀ input : CompilerInput, jsTruthy input.favicon = true →
      faviconHtmlOf input
        = "<link rel=\"icon\" href=\"" ++ input.favicon.getD "" ++ "\">") := by
  refine ⟨escapeHtml_no_specials, ?_, countLt_navigationHtml, fun env icons
    posts mangle sel content => countLt_codeblock env icons posts mangle
    sel content, countLt_bloglistItem, flattenInlineNode_text,
    countLt_metaHtml, ?_, ?_⟩
  · intro input
    unfold titleHtmlOf
    rw [countLt_append, countLt_append, countLt_escapeHtml]
    decide
  · intro env input f h
    unfold footerHtmlOf
    rw [h]
  · intro input h
    unfold faviconHtmlOf
    rw [if_pos h]

def c7WitnessInput : CompilerInput :=
  { slug := "a", title := "t",
    content := [.paragraph none [.text "hi"]],
    favicon := some "fav.ico",
    navigation := some ⟨[⟨"Home", "/index.html"⟩]⟩,
    footer := some ⟨"bye"⟩,
    meta := some { description := some "d" },
    allowPagination := false, buildId := "b" }

theorem c7_witness :
    ('<' ∈ (escapeHtml "<x>").data → False) ∧
    countLt (titleHtmlOf c7WitnessInput) = 2 ∧
    countLt (navigationHtmlOf c7WitnessInput) = 4 + 2 * 1 ∧
    (flattenContentBlock defaultEnv [] none false
      (.codeblock none "a<b")).map countLt = some 4 ∧
    countLt (bloglistItemHtml defaultEnv
      ⟨"s", "T", "2024-01-02", "published", "post"⟩) = 6 ∧
    flattenInlineNode [] "content" (.text "a<b") 0
      = some (escapeHtml "a<b") ∧
    countLt (metaHtmlOf c7WitnessInput) = 1 + 0 ∧
    footerHtmlOf defaultEnv c7WitnessInput
      = "<footer>" ++ defaultEnv.sanitizeHtml "bye" ++ "</footer>" ∧
    faviconHtmlOf c7WitnessInput
      = "<link rel=\"icon\" href=\"" ++ "fav.ico" ++ "\">" := by
  have h := c7_amended
  refine ⟨?_, h.2.1 c7WitnessInput, ?_, h.2.2.2.1 defaultEnv [] none false
    none "a<b", ?_, h.2.2.2.2.2.1 [] "content" "a<b" 0, ?_, ?_, ?_⟩
  · intro hc
    exact ((h.1 "<x>" '<' hc).1 rfl)
  · exact h.2.2.1 c7WitnessInput ⟨[⟨"Home", "/index.html"⟩]⟩ rfl
  · exact h.2.2.2.2.1 defaultEnv
      ⟨"s", "T", "2024-01-02", "published", "post"⟩ (by decide)
  · exact h.2.2.2.2.2.2.1 c7WitnessInput { description := some "d" } rfl
  · exact h.2.2.2.2.2.2.2.1 defaultEnv c7WitnessInput ⟨"bye"⟩ rfl
  · exact h.2.2.2.2.2.2.2.2 c7WitnessInput (by decide)

/-- C2 counterexample input: the minimal one-paragraph page plus one
icon reference that no inline node ever renders. -/
def c2Input : CompilerInput :=
  { slug := "a", title := "t",
    content := [.paragraph none [.text "hi"]],
    icons := [⟨"check", "content", 0⟩],
    allowPagination := false, buildId := "b" }

/-- Breakdown-sum of the first page measurement of a successful outcome. -/
def outcomeFirstMeasurementTotal (o : CompileOutcome) : Option Nat :=
  match o with
  | .ok (.success _ _ _ (m :: _) _) => some (totalFromBreakdown m.breakdown)
  | _ => none

/-- Measured UTF-8 byte length of the first page of a successful
outcome. -/
def outcomeFirstPageBytes (o : CompileOutcome) : Option Nat :=
  match o with
  | .ok (.success _ _ (p :: _) _ _) => some (measureBytes p.html)
  | _ => none

set_option maxRecDepth 40000 in
/-- C2 counterexample: an icon reference is charged to the breakdown
(167 bytes for `check`) even when no inline node emits it, so the
breakdown sum of the compiled page is 370 while the assembled HTML
measures 203 bytes — the claimed exact equality fails. -/
theorem c2_counterexample :
    outcomeFirstMeasurementTotal (compile defaultEnv c2Input) = some 370 ∧
    outcomeFirstPageBytes (compile defaultEnv c2Input) = some 203 := by
  refine ⟨?_, ?_⟩ <;> decide

/-- Concatenation preserves carriage-return freedom. -/
theorem crFree_append (a b : String) (ha : crFree a) (hb : crFree b) :
    crFree (a ++ b) := by
  simp only [crFree, String.data_append, List.mem_append] at *
  exact fun h => h.elim ha hb

/-- A newline-join of carriage-return-free parts is carriage-return
free. -/
theorem crFree_jsJoin_nl (parts : List String)
    (h : ∀ s ∈ parts, crFree s) : crFree (jsJoin "\n" parts) := by
  induction parts with
  | nil => decide
  | cons s rest ih =>
    cases rest with
    | nil => exact h s (by simp)
    | cons t ts =>
      rw [jsJoin]
      · refine crFree_append _ _ (crFree_append _ _ (h s (by simp))
          (by decide)) (ih ?_)
        intro u hu
        exact h u (List.mem_cons_of_mem s hu)
      · intro hcc
        exact List.noConfusion hcc

/-- With no bloglist items, the content assembly loop appends the block
fragments verbatim. -/
theorem assembleContentParts_no_bl (blocks : List FlattenedContentBlock)
    (h : ∀ b ∈ blocks, b.blockType ≠ some FlatBlockType.bloglistItem)
    (parts : List String) :
    assembleContentParts blocks false [] parts
      = parts ++ blocks.map (fun b => b.html) := by
  induction blocks generalizing parts with
  | nil => simp [assembleContentParts]
  | cons b rest ih =>
    have hb : b.blockType ≠ some FlatBlockType.bloglistItem := h b (by simp)
    rw [assembleContentParts, if_neg hb]
    simp only [Bool.false_eq_true, if_false]
    rw [ih (fun x hx => h x (List.mem_cons_of_mem b hx)) (parts ++ [b.html])]
    simp

/-- With no bloglist items, `assembleContentHtml` is exactly the
newline-join of the block fragments (no wrapper is inserted), i.e. the
same string whose byte count `flatten` stored in `breakdown.content`. -/
theorem assembleContentHtml_no_bl (blocks : List FlattenedContentBlock)
    (h : ∀ b ∈ blocks, b.blockType ≠ some FlatBlockType.bloglistItem) :
    assembleContentHtml blocks = jsJoin "\n" (blocks.map (fun b => b.html)) := by
  cases blocks with
  | nil => rfl
  | cons b rest =>
      rw [assembleContentHtml]
      · simp [assembleContentParts_no_bl _ h []]
      · intro hcc
        exact List.noConfusion hcc

/-- Byte count of an optional newline-prefixed head fragment. -/
theorem measureBytes_opt_nl (p : String) :
    measureBytes (if p ≠ "" then "\n" ++ p else "")
      = (if p ≠ "" then measureBytes "\n" else 0) + measureBytes p := by
  by_cases h : p = ""
  · subst h; simp
  · rw [if_pos h, if_pos h, measureBytes_append]

/-- The `<head>` element measures to exactly `headStructureBytes` plus
the title, favicon, meta and css fragments. -/
theorem head_accounting (t f m c : String) :
    measureBytes ("<head>\n" ++
      ("<meta charset=\"utf-8\">\n<meta name=\"viewport\" content=\"width=device-width,initial-scale=1\">\n"
        ++ t ++
        (if f ≠ "" then "\n" ++ f else "") ++
        (if m ≠ "" then "\n" ++ m else "") ++
        (if c ≠ "" then "\n" ++ c else "")) ++ "\n</head>")
      = (measureBytes "<head>\n<meta charset=\"utf-8\">\n<meta name=\"viewport\" content=\"width=device-width,initial-scale=1\">\n" +
        (if f ≠ "" then measureBytes "\n" else 0) +
        (if m ≠ "" then measureBytes "\n" else 0) +
        (if c ≠ "" then measureBytes "\n" else 0) +
        measureBytes "\n</head>") +
        measureBytes t + measureBytes f + measureBytes m + measureBytes c := by
  have hlit : measureBytes "<head>\n<meta charset=\"utf-8\">\n<meta name=\"viewport\" content=\"width=device-width,initial-scale=1\">\n"
      = measureBytes "<head>\n" +
        measureBytes "<meta charset=\"utf-8\">\n<meta name=\"viewport\" content=\"width=device-width,initial-scale=1\">\n" := by
    decide
  simp only [measureBytes_append, measureBytes_opt_nl, hlit]
  omega

/-- Exact byte accounting of the assembled document join: the
newline-join of the structural parts measures to exactly the `base`
accounting expression of `flatten` plus the byte counts of the title,
favicon, meta, css, navigation, footer and content fragments. -/
theorem join_accounting (t f m c nav cH ft : String) :
    measureBytes (jsJoin "\n"
      (["<!DOCTYPE html>", "<html lang=\"en\">",
        "<head>\n" ++
          ("<meta charset=\"utf-8\">\n<meta name=\"viewport\" content=\"width=device-width,initial-scale=1\">\n"
            ++ t ++
            (if f ≠ "" then "\n" ++ f else "") ++
            (if m ≠ "" then "\n" ++ m else "") ++
            (if c ≠ "" then "\n" ++ c else "")) ++ "\n</head>",
        "<body>"] ++
       (if nav ≠ "" then [nav] else []) ++
       ["<main>"] ++
       (if cH ≠ "" then [cH] else []) ++
       (if ("" : String) ≠ "" then [("" : String)] else []) ++
       ["</main>"] ++
       (if ft ≠ "" then [ft] else []) ++
       ["</body>", "</html>"]))
      = (measureBytes "<!DOCTYPE html>" + measureBytes "\n" +
         measureBytes "<html lang=\"en\">" + measureBytes "\n" +
         (measureBytes "<head>\n<meta charset=\"utf-8\">\n<meta name=\"viewport\" content=\"width=device-width,initial-scale=1\">\n" +
          (if f ≠ "" then measureBytes "\n" else 0) +
          (if m ≠ "" then measureBytes "\n" else 0) +
          (if c ≠ "" then measureBytes "\n" else 0) +
          measureBytes "\n</head>") + measureBytes "\n" +
         measureBytes "<body>" + measureBytes "\n" +
         measureBytes "<main>" + measureBytes "\n" +
         measureBytes "</main>" + measureBytes "\n" +
         measureBytes "</body>" + measureBytes "\n" +
         measureBytes "</html>" +
         (if nav ≠ "" then measureBytes "\n" else 0) +
         (if cH ≠ "" then measureBytes "\n" else 0) +
         (if ft ≠ "" then measureBytes "\n" else 0)) +
        measureBytes t + measureBytes f + measureBytes m + measureBytes c +
        measureBytes nav + measureBytes ft + measureBytes cH := by
  have h1 : measureBytes "\n" = 1 := by decide
  have h0 : measureBytes "" = 0 := rfl
  have hlit : measureBytes "<head>\n<meta charset=\"utf-8\">\n<meta name=\"viewport\" content=\"width=device-width,initial-scale=1\">\n"
      = measureBytes "<head>\n" +
        measureBytes "<meta charset=\"utf-8\">\n<meta name=\"viewport\" content=\"width=device-width,initial-scale=1\">\n" := by
    decide
  by_cases hn : nav = "" <;> by_cases hco : cH = "" <;> by_cases hf2 : ft = "" <;>
    by_cases hfa : f = "" <;> by_cases hme : m = "" <;> by_cases hcc : c = "" <;>
    (simp only [hn, hco, hf2, hfa, hme, hcc, ne_eq, not_true_eq_false,
       not_false_eq_true, if_true, if_false, ite_true, ite_false,
       List.append_nil, List.nil_append, reduceIte, h1] <;>
     rw [measureBytes_jsJoin_nl _ (by simp)] <;>
     simp only [List.map_append, List.map_cons, List.map_nil, List.sum_append,
       List.sum_cons, List.sum_nil, List.length_append, List.length_cons,
       List.length_nil, measureBytes_append, h0, h1, hlit] <;>
     omega)

/-- Every member of a conditional singleton part list is carriage-return
free when its element is. -/
theorem forall_crFree_opt (x : String) (hx : crFree x) (P : Prop)
    [Decidable P] : ∀ s ∈ (if P then [x] else []), crFree s := by
  split
  · intro s hs
    simp only [List.mem_cons, List.not_mem_nil, or_false] at hs
    subst hs
    exact hx
  · intro s hs
    cases hs

/-- The full assembled part list is carriage-return free when the head,
navigation, content and footer fragments are. -/
theorem crFree_assembled (hd nav cH ft : String) (h1 : crFree hd)
    (h2 : crFree nav) (h3 : crFree cH) (h4 : crFree ft) :
    crFree (jsJoin "\n"
      (["<!DOCTYPE html>", "<html lang=\"en\">", hd, "<body>"] ++
       (if nav ≠ "" then [nav] else []) ++ ["<main>"] ++
       (if cH ≠ "" then [cH] else []) ++
       (if ("" : String) ≠ "" then [("" : String)] else []) ++
       ["</main>"] ++ (if ft ≠ "" then [ft] else []) ++
       ["</body>", "</html>"])) := by
  apply crFree_jsJoin_nl
  simp only [List.forall_mem_append]
  refine ⟨⟨⟨⟨⟨⟨⟨?_, ?_⟩, ?_⟩, ?_⟩, ?_⟩, ?_⟩, ?_⟩, ?_⟩
  · intro s hs
    simp only [List.mem_cons, List.not_mem_nil, or_false] at hs
    rcases hs with rfl | rfl | rfl | rfl
    · decide
    · decide
    · exact h1
    · decide
  · exact forall_crFree_opt nav h2 _
  · decide
  · exact forall_crFree_opt cH h3 _
  · exact forall_crFree_opt "" (by decide) _
  · decide
  · exact forall_crFree_opt ft h4 _
  · decide

/-- The exact-accounting property of a pagination outcome: it is a
single-page success whose breakdown sums to the measured byte length of
the assembled final document. -/
def singlePageExact (page : FlattenedPage) (o : PaginateOutcome) : Prop :=
  match o with
  | .res (.success [pp]) =>
      totalFromBreakdown pp.breakdown
        = measureBytes (assemblePageWithContent page pp.contentHtml
            pp.paginationHtml)
  | _ => False


/-- A string with a nonempty left part is nonempty. -/
theorem append_ne_empty (a b : String) (ha : a ≠ "") : a ++ b ≠ "" := by
  intro h
  apply ha
  have h0 := (measureBytes_eq_zero_iff (a ++ b)).mpr h
  rw [measureBytes_append] at h0
  exact (measureBytes_eq_zero_iff a).mp (by omega)

/-- A string with a nonempty right part is nonempty. -/
theorem append_ne_empty_right (a b : String) (hb : b ≠ "") : a ++ b ≠ "" := by
  intro h
  apply hb
  have h0 := (measureBytes_eq_zero_iff (a ++ b)).mpr h
  rw [measureBytes_append] at h0
  exact (measureBytes_eq_zero_iff b).mp (by omega)

/-- A newline-join of nonempty parts is nonempty. -/
theorem jsJoin_nl_ne_empty (parts : List String) (hne : parts ≠ [])
    (h : ∀ p ∈ parts, p ≠ "") : jsJoin "\n" parts ≠ "" := by
  cases parts with
  | nil => exact absurd rfl hne
  | cons s rest =>
      cases rest with
      | nil => exact h s (by simp)
      | cons t ts =>
          rw [jsJoin]
          · apply append_ne_empty
            apply append_ne_empty_right
            decide
          · intro hcc
            exact List.noConfusion hcc

/-- Every rendering of a nested bloglist is nonempty (empty-state
paragraph or a wrapped list). -/
theorem renderBloglist_ne_empty (env : JsEnv) (posts : List Post)
    (block : BloglistBlock) : renderBloglist env posts block ≠ "" := by
  rw [renderBloglist]
  split
  · decide
  · dsimp only
    split
    · repeat apply append_ne_empty
      decide
    · repeat apply append_ne_empty
      decide

/-- Every fragment produced by `flattenContentBlock` is nonempty: each
branch emits a string that opens with a literal tag. -/
theorem flattenContentBlock_ne_empty (env : JsEnv)
    (icons : List IconReference) (posts : Option (List Post))
    (mangle : Bool) (block : ContentBlock) (s : String)
    (h : flattenContentBlock env icons posts mangle block = some s) :
    s ≠ "" := by
  cases block with
  | bloglist b =>
      rw [flattenContentBlock] at h
      try dsimp only at h
      split at h
      · injection h with h2
        subst h2
        exact renderBloglist_ne_empty env _ b
      · injection h with h2
        subst h2
        repeat apply append_ne_empty
        decide
  | divider sel =>
      injection h with h2
      subst h2
      repeat apply append_ne_empty
      decide
  | spacer sel height =>
      injection h with h2
      subst h2
      repeat apply append_ne_empty
      decide
  | codeblock sel content =>
      injection h with h2
      subst h2
      repeat apply append_ne_empty
      decide
  | unorderedList sel items =>
      rw [flattenContentBlock] at h
      cases hx : flattenListItems icons items with
      | none => rw [hx] at h; exact Option.noConfusion h
      | some v =>
          rw [hx] at h
          try simp only [Option.some_bind] at h
          injection h with h2
          subst h2
          try dsimp only
          repeat apply append_ne_empty
          decide
  | orderedList sel items =>
      rw [flattenContentBlock] at h
      cases hx : flattenListItems icons items with
      | none => rw [hx] at h; exact Option.noConfusion h
      | some v =>
          rw [hx] at h
          try simp only [Option.some_bind] at h
          injection h with h2
          subst h2
          try dsimp only
          repeat apply append_ne_empty
          decide
  | layout sel columns rows rowGap columnGap className cells =>
      rw [flattenContentBlock] at h
      cases hx : flattenCells env icons posts mangle cells with
      | none => rw [hx] at h; exact Option.noConfusion h
      | some v =>
          rw [hx] at h
          try simp only [Option.some_bind] at h
          injection h with h2
          subst h2
          try dsimp only
          repeat apply append_ne_empty
          decide
  | sectionB sel background color pattern patternColor patternOpacity
      width padding align children =>
      rw [flattenContentBlock] at h
      cases hx : flattenBlockList env icons posts mangle children with
      | none => rw [hx] at h; exact Option.noConfusion h
      | some v =>
          rw [hx] at h
          try simp only [Option.some_bind] at h
          injection h with h2
          subst h2
          try dsimp only
          repeat apply append_ne_empty
          decide
  | heading sel level children =>
      rw [flattenContentBlock] at h
      cases hx : flattenInlineNodes icons "content" children with
      | none => rw [hx] at h; exact Option.noConfusion h
      | some v =>
          rw [hx] at h
          try simp only [Option.some_bind] at h
          injection h with h2
          subst h2
          try dsimp only
          repeat apply append_ne_empty
          decide
  | blockquote sel children =>
      rw [flattenContentBlock] at h
      cases hx : flattenInlineNodes icons "content" children with
      | none => rw [hx] at h; exact Option.noConfusion h
      | some v =>
          rw [hx] at h
          try simp only [Option.some_bind] at h
          injection h with h2
          subst h2
          try dsimp only
          repeat apply append_ne_empty
          decide
  | paragraph sel children =>
      rw [flattenContentBlock] at h
      cases hx : flattenInlineNodes icons "content" children with
      | none => rw [hx] at h; exact Option.noConfusion h
      | some v =>
          rw [hx] at h
          try simp only [Option.some_bind] at h
          injection h with h2
          subst h2
          try dsimp only
          repeat apply append_ne_empty
          decide

/-- Every block produced by bloglist expansion carries nonempty HTML
(feed item, empty state, archive link or end-of-list marker). -/
theorem flattenBloglistToItems_html_ne (env : JsEnv) (posts : List Post)
    (bb : BloglistBlock) (idx : Nat) :
    ∀ fb ∈ flattenBloglistToItems env posts bb idx, fb.html ≠ "" := by
  intro fb hfb
  rw [flattenBloglistToItems] at hfb
  dsimp only at hfb
  split at hfb
  · simp only [List.mem_cons, List.not_mem_nil, or_false] at hfb
    subst hfb
    show emptyStateHtml ≠ ""
    decide
  · split at hfb
    · rcases List.mem_append.mp hfb with hl | hr
      · obtain ⟨post, _, rfl⟩ := List.mem_map.mp hl
        show bloglistItemHtml env post ≠ ""
        rw [bloglistItemHtml]
        repeat apply append_ne_empty
        decide
      · simp only [List.mem_cons, List.not_mem_nil, or_false] at hr
        subst hr
        show archiveLinkHtml _ ≠ ""
        rw [archiveLinkHtml]
        repeat apply append_ne_empty
        decide
    · split at hfb
      · rcases List.mem_append.mp hfb with hl | hr
        · obtain ⟨post, _, rfl⟩ := List.mem_map.mp hl
          show bloglistItemHtml env post ≠ ""
          rw [bloglistItemHtml]
          repeat apply append_ne_empty
          decide
        · simp only [List.mem_cons, List.not_mem_nil, or_false] at hr
          subst hr
          show endOfListHtml ≠ ""
          decide
      · obtain ⟨post, _, rfl⟩ := List.mem_map.mp hfb
        show bloglistItemHtml env post ≠ ""
        rw [bloglistItemHtml]
        repeat apply append_ne_empty
        decide

theorem flattenBlocksTop_html_ne (env : JsEnv)
    (icons : List IconReference) (posts : Option (List Post))
    (mangle : Bool) (blocks : List ContentBlock) : ∀ (index : Nat)
    (bs : List FlattenedContentBlock),
    flattenBlocksTop env icons posts mangle blocks index = some bs →
    ∀ fb ∈ bs, fb.html ≠ "" := by
  induction blocks with
  | nil =>
      intro index bs h fb hfb
      rw [flattenBlocksTop] at h
      injection h with h2
      subst h2
      cases hfb
  | cons b rest ih =>
      intro index bs h
      by_cases hbl : ∃ bb, b = ContentBlock.bloglist bb
      · obtain ⟨bb, rfl⟩ := hbl
        rw [flattenBlocksTop] at h
        cases ht : flattenBlocksTop env icons posts mangle rest (index + 1) with
        | none => rw [ht] at h; exact Option.noConfusion h
        | some t =>
            rw [ht] at h
            try simp only [Option.some_bind] at h
            injection h with h2
            subst h2
            intro fb hfb
            rcases List.mem_append.mp hfb with hl | hr
            · exact flattenBloglistToItems_html_ne env _ bb index fb hl
            · exact ih (index + 1) t ht fb hr
      · rw [flattenBlocksTop] at h
        · cases hx : flattenContentBlock env icons posts mangle b with
          | none => rw [hx] at h; exact Option.noConfusion h
          | some html =>
              rw [hx] at h
              cases ht : flattenBlocksTop env icons posts mangle rest
                  (index + 1) with
              | none => rw [ht] at h; exact Option.noConfusion h
              | some t =>
                  rw [ht] at h
                  try simp only [Option.some_bind] at h
                  injection h with h2
                  subst h2
                  intro fb hfb
                  rcases List.mem_cons.mp hfb with hl | hr
                  · subst hl
                    exact flattenContentBlock_ne_empty env icons posts
                      mangle b html hx
                  · exact ih (index + 1) t ht fb hr
        · intro bb hh
          exact hbl ⟨bb, hh⟩

/-- Every part accumulated by the content assembly loop is nonempty,
given nonempty block fragments and accumulator parts (a bloglist run
part opens with the literal wrapper). -/
theorem assembleContentParts_all_ne (blocks : List FlattenedContentBlock) :
    ∀ (inBl : Bool) (items parts : List String),
    (∀ b ∈ blocks, b.html ≠ "") → (∀ p ∈ parts, p ≠ "") →
    ∀ p ∈ assembleContentParts blocks inBl items parts, p ≠ "" := by
  induction blocks with
  | nil =>
      intro inBl items parts _ hp p hmem
      rw [assembleContentParts] at hmem
      split at hmem
      · rcases List.mem_append.mp hmem with hl | hr
        · exact hp p hl
        · simp only [List.mem_cons, List.not_mem_nil, or_false] at hr
          subst hr
          repeat apply append_ne_empty
          decide
      · exact hp p hmem
  | cons b rest ih =>
      intro inBl items parts hb hp p hmem
      have hbrest : ∀ x ∈ rest, x.html ≠ "" :=
        fun x hx => hb x (List.mem_cons_of_mem b hx)
      rw [assembleContentParts] at hmem
      split at hmem
      · split at hmem
        · exact ih true _ parts hbrest hp p hmem
        · exact ih true _ parts hbrest hp p hmem
      · dsimp only at hmem
        refine ih false [] _ hbrest ?_ p hmem
        intro q hq
        rcases List.mem_append.mp hq with hl | hr
        · split at hl
          · rcases List.mem_append.mp hl with hll | hlr
            · exact hp q hll
            · simp only [List.mem_cons, List.not_mem_nil, or_false] at hlr
              subst hlr
              repeat apply append_ne_empty
              decide
          · exact hp q hl
        · simp only [List.mem_cons, List.not_mem_nil, or_false] at hr
          subst hr
          exact hb b (List.mem_cons_self b rest)

/-- The content assembly loop returns a nonempty part list whenever it
starts with blocks, an open bloglist run, or accumulated parts. -/
theorem assembleContentParts_ne_nil (blocks : List FlattenedContentBlock) :
    ∀ (inBl : Bool) (items parts : List String),
    (blocks = [] → inBl = false → parts ≠ []) →
    assembleContentParts blocks inBl items parts ≠ [] := by
  induction blocks with
  | nil =>
      intro inBl items parts hcond
      cases inBl with
      | true =>
          rw [assembleContentParts]
          simp
      | false =>
          rw [assembleContentParts]
          simp only [Bool.false_eq_true, if_false]
          exact hcond rfl rfl
  | cons b rest ih =>
      intro inBl items parts hcond
      rw [assembleContentParts]
      split
      · split
        · exact ih true _ parts (fun _ hh => nomatch hh)
        · exact ih true _ parts (fun _ hh => nomatch hh)
      · dsimp only
        exact ih false [] _ (fun _ _ => by simp)

/-- `assembleContentHtml` of a nonempty block list with nonempty
fragments is nonempty, so its emptiness agrees with that of the plain
newline-join whose bytes `flatten` charged to `breakdown.content`. -/
theorem assembleContentHtml_ne_empty (blocks : List FlattenedContentBlock)
    (hb : ∀ b ∈ blocks, b.html ≠ "") (hne : blocks ≠ []) :
    assembleContentHtml blocks ≠ "" := by
  cases blocks with
  | nil => exact absurd rfl hne
  | cons b rest =>
      rw [assembleContentHtml]
      · refine jsJoin_nl_ne_empty _ ?_ ?_
        · exact assembleContentParts_ne_nil (b :: rest) false [] []
            (fun hc _ => absurd hc (by simp))
        · exact assembleContentParts_all_ne (b :: rest) false [] [] hb
            (fun p hp => absurd hp (List.not_mem_nil p))
      · intro hcc
        exact List.noConfusion hcc

/-- C2 (amended): the claimed exact equality between the breakdown sum
and the measured page bytes does NOT hold in general (see the
counterexample: referenced icons are charged to the breakdown without
being emitted).  It does hold for every flatten result of an icon-free
input whose emitted fragments are carriage-return free and whose content
fits on a single page: `paginate` returns a single-page success whose
breakdown — `flatten`'s base/title/favicon/meta/css/navigation/footer
accounting plus the recomputed content bytes (bloglist `<ul>` wrapper
bytes included) — sums exactly to the measured UTF-8 byte length of the
assembled final HTML document, with no unattributed bytes. -/
theorem c2_amended (env : JsEnv) (input : CompilerInput)
    (fr : FlattenResult)
    (hicons : input.icons = [])
    (hfl : flatten env input = some fr)
    (hcr : crFree fr.page.head ∧ crFree fr.page.navigation ∧
      crFree (assembleContentHtml fr.contentBlocks) ∧ crFree fr.page.footer)
    (hfits : calculateFixedOverhead fr.breakdown +
        ((fr.contentBlocks.map (fun b => b.bytes)).sum +
          (fr.contentBlocks.length - 1)) +
        calculateBloglistWrapperOverhead fr.contentBlocks ≤ SIZE_LIMIT)
    (ap : Bool) :
    singlePageExact fr.page
      (paginate input.slug fr.page fr.contentBlocks fr.breakdown ap) := by
  unfold flatten at hfl
  rw [hicons] at hfl
  simp only [iconBytesSum, Option.some_bind] at hfl
  cases hfb : flattenBlocksTop env [] input.posts
      (input.classMangling = some true) input.content 0 with
  | none =>
      rw [hfb] at hfl
      exact Option.noConfusion hfl
  | some cbs =>
      rw [hfb] at hfl
      injection hfl with h
      subst h
      obtain ⟨hcrH, hcrN, hcrC, hcrF⟩ := hcr
      dsimp only at hcrH hcrN hcrC hcrF hfits ⊢
      have hbs : ∀ fb ∈ cbs, fb.html ≠ "" :=
        flattenBlocksTop_html_ne env [] input.posts
          (input.classMangling = some true) input.content 0 cbs hfb
      have hiff : (jsJoin "\n" (List.map (fun b => b.html) cbs) ≠ "") ↔
          (assembleContentHtml cbs ≠ "") := by
        cases cbs with
        | nil => exact iff_of_false (fun hx => hx rfl) (fun hx => hx rfl)
        | cons b rest =>
            refine iff_of_true ?_ ?_
            · refine jsJoin_nl_ne_empty _ (by simp) ?_
              intro p hp
              obtain ⟨x, hx, rfl⟩ := List.mem_map.mp hp
              exact hbs x hx
            · exact assembleContentHtml_ne_empty _ hbs (by simp)
      have hbase : (if jsJoin "\n" (List.map (fun b => b.html) cbs) ≠ ""
            then measureBytes "\n" else 0)
          = (if assembleContentHtml cbs ≠ "" then measureBytes "\n" else 0) :=
        if_congr hiff rfl rfl
      unfold paginate
      try dsimp only
      rw [if_pos hfits]
      unfold singlePageExact
      try dsimp only
      rw [hbase]
      unfold assemblePageWithContent
      try dsimp only
      rw [normalizeLineEndings_of_crFree _
        (crFree_assembled _ _ _ _ hcrH hcrN hcrC hcrF)]
      rw [join_accounting]
      simp only [totalFromBreakdown]
      try dsimp only
      omega

/-- C2 witness fixture: the single published feed post of the witness
input. -/
def c2WPost : Post :=
  { slug := "p1", title := "T", publishedAt := "2020-01-01",
    status := "published", pageType := "post" }

/-- C2 witness fixture: an icon-free input whose content is a bloglist
that expands to one feed item (the wrapper-accounting case). -/
def c2WInput : CompilerInput :=
  { slug := "w", title := "t",
    content := [.bloglist { limit := .undef, archiveLink := none,
                            selector := none }],
    posts := some [c2WPost],
    allowPagination := false, buildId := "b" }

/-- C2 witness fixture: the flatten result of `c2WInput`. -/
def c2Fr : FlattenResult :=
  { page := { doctype := "<!DOCTYPE html>"
              htmlOpen := "<html lang=\"en\">"
              head := "<head>\n<meta charset=\"utf-8\">\n<meta name=\"viewport\" content=\"width=device-width,initial-scale=1\">\n<title>t</title>\n</head>"
              bodyOpen := "<body>"
              navigation := ""
              mainOpen := "<main>"
              content := "<li class=\"post\"><a href=\"/p1\">T</a> - <time datetime=\"2020-01-01\">2020-01-01</time></li>"
              mainClose := "</main>"
              footer := ""
              bodyClose := "</body>"
              htmlClose := "</html>" }
    contentBlocks := [{ html := "<li class=\"post\"><a href=\"/p1\">T</a> - <time datetime=\"2020-01-01\">2020-01-01</time></li>",
                        bytes := 89, sourceIndex := 0,
                        blockType := some .bloglistItem }]
    breakdown := { base := 178, title := 16, favicon := 0, meta := 0,
                   css := 0, navigation := 0, footer := 0, pagination := 0,
                   icons := 0, content := 89 }
    iconBytes := 0 }

set_option maxRecDepth 40000 in
/-- The flatten result of the C2 witness input, proved by stepping the
bloglist expansion (the sort of the singleton post list is rewritten by
`simp`; the kernel cannot reduce `List.mergeSort`). -/
theorem c2_flatten_eq : flatten defaultEnv c2WInput = some c2Fr := by
  have hms : sortPostsDesc defaultEnv [c2WPost] = [c2WPost] := by
    rw [sortPostsDesc]
    simp
  have hexp : flattenBloglistToItems defaultEnv (c2WInput.posts.getD [])
      { limit := .undef, archiveLink := none, selector := none } 0
      = c2Fr.contentBlocks := by
    rw [flattenBloglistToItems]
    rw [show publishedPosts (c2WInput.posts.getD []) = [c2WPost] from rfl]
    dsimp only
    rw [hms]
    decide
  have hbt : flattenBlocksTop defaultEnv c2WInput.icons c2WInput.posts
      (c2WInput.classMangling = some true) c2WInput.content 0
      = some c2Fr.contentBlocks := by
    rw [show c2WInput.content = [ContentBlock.bloglist
      { limit := .undef, archiveLink := none, selector := none }] from rfl]
    rw [flattenBlocksTop]
    rw [show flattenBlocksTop defaultEnv c2WInput.icons c2WInput.posts
      (c2WInput.classMangling = some true) [] 1 = some [] from rfl]
    try simp only [Option.some_bind]
    rw [hexp]
    simp
  unfold flatten
  rw [show iconBytesSum c2WInput.icons = some 0 from rfl]
  simp only [Option.some_bind]
  rw [hbt]
  try simp only [Option.some_bind]
  decide

set_option maxRecDepth 40000 in
theorem c2_witness :
    singlePageExact c2Fr.page
      (paginate c2WInput.slug c2Fr.page c2Fr.contentBlocks c2Fr.breakdown
        false) :=
  c2_amended defaultEnv c2WInput c2Fr rfl c2_flatten_eq (by decide)
    (by decide) false
